import Mathlib

/-!
# task-flow-be: rank table, upgrade detector and transactional task store

A shallow embedding of `shared/constants/ranks.js`, `src/services/rankService.js`,
`src/controllers/todoController.js` and the table layout of `src/config/database.js`.

Counts are JavaScript numbers holding integers; they are embedded as `Int`
(the comparisons of `calculateRank` are meaningful for negative numbers too, where the
loop falls through to its default).
-/

namespace TaskFlow

/-! ## Rank table (`shared/constants/ranks.js`) -/

/-- The rank names of `RANKS`. -/
inductive Rank
  | iron
  | silver
  | gold
  | diamond
  | platinum
  | todo_master
  deriving DecidableEq, Repr

/-- One entry of `RANK_THRESHOLDS`; `max = none` stands for `Infinity`. -/
structure Threshold where
  min : Int
  max : Option Int
  displayName : String
  color : String
  deriving DecidableEq, Repr

/-- The table `RANK_THRESHOLDS`. -/
def RANK_THRESHOLDS : Rank → Threshold
  | Rank.iron => { min := 0, max := some 9, displayName := "Iron", color := "#9CA3AF" }
  | Rank.silver => { min := 10, max := some 24, displayName := "Silver", color := "#C0C0C0" }
  | Rank.gold => { min := 25, max := some 49, displayName := "Gold", color := "#FFD700" }
  | Rank.diamond => { min := 50, max := some 99, displayName := "Diamond", color := "#B9F2FF" }
  | Rank.platinum => { min := 100, max := some 199, displayName := "Platinum", color := "#E5E4E2" }
  | Rank.todo_master =>
      { min := 200, max := none, displayName := "Todo Master", color := "#DC2626" }

/-- The array `RANK_ORDER`. -/
def RANK_ORDER : List Rank :=
  [Rank.iron, Rank.silver, Rank.gold, Rank.diamond, Rank.platinum, Rank.todo_master]

/-- The loop condition `completedTasks >= threshold.min && completedTasks <= threshold.max`. -/
def inThreshold (threshold : Threshold) (completedTasks : Int) : Bool :=
  decide (completedTasks ≥ threshold.min) &&
    (match threshold.max with
     | some mx => decide (completedTasks ≤ mx)
     | none => true)

/-- The `for (const rank of RANK_ORDER)` loop of `calculateRank`, with its early return. -/
def calculateRankLoop (completedTasks : Int) : List Rank → Option Rank
  | [] => none
  | rank :: rest =>
      if inThreshold (RANK_THRESHOLDS rank) completedTasks then some rank
      else calculateRankLoop completedTasks rest

/-- The function `calculateRank`: first rank of `RANK_ORDER` whose range holds the count,
`RANKS.IRON` when the loop ends without a match. -/
def calculateRank (completedTasks : Int) : Rank :=
  match calculateRankLoop completedTasks RANK_ORDER with
  | some rank => rank
  | none => Rank.iron

/-- The object returned by `checkRankUpgrade` when the ranks differ. -/
structure UpgradeInfo where
  fromRank : Rank
  toRank : Rank
  upgraded : Bool
  deriving DecidableEq, Repr

/-- The function `checkRankUpgrade`; `none` is the JavaScript `null`. -/
def checkRankUpgrade (oldCount newCount : Int) : Option UpgradeInfo :=
  let oldRank := calculateRank oldCount
  let newRank := calculateRank newCount
  if oldRank ≠ newRank then
    some { fromRank := oldRank, toRank := newRank, upgraded := true }
  else
    none

/-! ## Progress to the next rank (`getRankProgress`)

`getRankProgress` computes `(tasksCompleted / tasksInCurrentRank) * 100` in IEEE double
arithmetic.  The two operations are embedded as exact rational operations followed by a
rounding function `fl : ℚ → ℚ` (round to the nearest double); the results are stated for
every `fl` that meets the standard error bound `IsDoubleRounding`. -/

/-- The rounding of an exact result to a double: on zero and on the numbers of magnitude
between `2^-10` and `2^10` (well inside the normal range, no overflow and no underflow) the
relative error is at most `2^-53`. -/
def IsDoubleRounding (fl : ℚ → ℚ) : Prop :=
  ∀ x : ℚ, (x = 0 ∨ (1 / 2 ^ 10 ≤ |x| ∧ |x| ≤ 2 ^ 10)) → |fl x - x| ≤ |x| / 2 ^ 53

/-- The function `Math.round`: nearest integer, ties toward positive infinity. -/
def mathRound (x : ℚ) : Int := ⌊x + 1 / 2⌋

/-- The object returned by `getRankProgress`; `nextRank = none` is the JavaScript `null`. -/
structure RankProgress where
  currentRank : Rank
  nextRank : Option Rank
  progress : Int
  tasksToNext : Int
  isMaxRank : Bool
  deriving DecidableEq, Repr

/-- The expression `Math.min(100, (tasksCompleted / tasksInCurrentRank) * 100)`, where
`tasksInCurrentRank = currentThreshold.max - currentThreshold.min + 1`; with
`max = Infinity` the quotient of a finite number by `Infinity` is `0`. -/
def progressValue (fl : ℚ → ℚ) (currentThreshold : Threshold) (completedTasks : Int) : ℚ :=
  let tasksCompleted : Int := completedTasks - currentThreshold.min
  match currentThreshold.max with
  | some mx =>
      let tasksInCurrentRank : Int := mx - currentThreshold.min + 1
      min 100 (fl (fl ((tasksCompleted : ℚ) / (tasksInCurrentRank : ℚ)) * 100))
  | none => min 100 (fl (0 * 100))

/-- The function `getRankProgress`.  `none` stands for the `TypeError` raised when
`RANK_ORDER[currentIndex + 1]` is `undefined` (it never is, see
`getRankProgress_isSome`). -/
def getRankProgress (fl : ℚ → ℚ) (completedTasks : Int) : Option RankProgress :=
  let currentRank := calculateRank completedTasks
  let currentIndex := RANK_ORDER.indexOf currentRank
  if currentIndex = RANK_ORDER.length - 1 then
    some { currentRank := currentRank, nextRank := none, progress := 100, tasksToNext := 0,
           isMaxRank := true }
  else
    match RANK_ORDER.get? (currentIndex + 1) with
    | none => none
    | some nextRank =>
        let nextThreshold := RANK_THRESHOLDS nextRank
        let currentThreshold := RANK_THRESHOLDS currentRank
        let progress := progressValue fl currentThreshold completedTasks
        some { currentRank := currentRank, nextRank := some nextRank,
               progress := mathRound progress,
               tasksToNext := nextThreshold.min - completedTasks, isMaxRank := false }

/-! ## JavaScript values met by the controllers -/

/-- The two kinds of JavaScript value that meet in `completed !== wasCompleted`: the JSON
boolean of the request body and the number which the mysql2 driver returns for the column
`completed BOOLEAN` (a `TINYINT(1)`) of `database.js`. -/
inductive JsVal
  | bool (b : Bool)
  | num (n : Int)
  deriving DecidableEq, Repr

/-- JavaScript truthiness (`if (x)`, `!x`, `x && y`). -/
def JsVal.truthy : JsVal → Bool
  | JsVal.bool b => b
  | JsVal.num n => decide (n ≠ 0)

/-- The strict inequality `a !== b`: values of different types are never strictly equal. -/
def JsVal.strictNe : JsVal → JsVal → Bool
  | JsVal.bool a, JsVal.bool b => a != b
  | JsVal.num a, JsVal.num b => a != b
  | JsVal.bool _, JsVal.num _ => true
  | JsVal.num _, JsVal.bool _ => true

/-- ECMAScript `WhiteSpace` and `LineTerminator` code points, removed by `trim`. -/
def jsIsWhitespace (c : Char) : Bool :=
  let n := c.toNat
  n = 0x09 || n = 0x0A || n = 0x0B || n = 0x0C || n = 0x0D || n = 0x20 || n = 0xA0 ||
  n = 0x1680 || (0x2000 ≤ n && n ≤ 0x200A) || n = 0x2028 || n = 0x2029 || n = 0x202F ||
  n = 0x205F || n = 0x3000 || n = 0xFEFF

/-- The method `String.prototype.trim`. -/
def jsTrim (s : String) : String :=
  String.mk ((s.data.dropWhile jsIsWhitespace).reverse.dropWhile jsIsWhitespace).reverse

/-! ## Tables (`database.js`; the `users` table belongs to the identity service) -/

/-- A row of `todos`.  `completed` is the number stored in the `BOOLEAN` column (`FALSE` is
`0`, `TRUE` is `1`), which is also what a `SELECT` hands back to JavaScript. -/
structure TodoRow where
  todo_id : String
  user_id : String
  task : String
  completed : Int
  completed_at : Option Nat
  created_at : Nat
  updated_at : Nat
  deriving DecidableEq, Repr

/-- A row of `users`, with the columns this service reads and writes. -/
structure UserRow where
  user_id : String
  username : String
  current_rank : Rank
  total_completed_tasks : Int
  rank_upgraded_at : Option Nat
  deriving DecidableEq, Repr

/-- A row of `rank_upgrades`. -/
structure RankUpgradeRow where
  upgrade_id : String
  user_id : String
  from_rank : Rank
  to_rank : Rank
  tasks_completed_at_upgrade : Int
  upgraded_at : Nat
  deriving DecidableEq, Repr

/-- The database: three tables, rows in insertion order. -/
structure Db where
  todos : List TodoRow
  users : List UserRow
  rank_upgrades : List RankUpgradeRow
  deriving DecidableEq, Repr

/-- The statements a request issues on its connection. -/
inductive Stmt
  | getConnection
  | beginTransaction
  | selectTodo
  | updateTodos
  | incrementCount
  | decrementCount
  | selectUser
  | updateRank
  | insertUpgrade
  | selectUpdatedTodo
  | commit
  | deleteTodos
  | insertTodo
  | selectNewTodo
  deriving DecidableEq, Repr

/-- What a request takes from its surroundings: the clock (`NOW()`, `CURRENT_TIMESTAMP`),
the identifier built from `Date.now()` and `Math.random()`, and which of its statements
raise an error (lost connection, constraint violation, ...). -/
structure Env where
  now : Nat
  freshId : String
  fails : Stmt → Bool

/-- An environment in which every statement executes. -/
def Env.sound (now : Nat) (freshId : String) : Env :=
  { now := now, freshId := freshId, fails := fun _ => false }

/-! ## SQL statements -/

/-- The rows of `SELECT ... FROM todos WHERE todo_id = ?`. -/
def selectTodosById (todoId : String) (db : Db) : List TodoRow :=
  db.todos.filter (fun t => t.todo_id == todoId)

/-- The rows of `SELECT ... FROM users WHERE user_id = ?`. -/
def selectUsersById (userId : String) (db : Db) : List UserRow :=
  db.users.filter (fun u => u.user_id == userId)

/-- One item of the `SET` clause assembled in `updateFields` and `updateValues`. -/
inductive Assignment
  | task (value : String)
  | completed (value : Bool)
  | completedAtNow
  | completedAtNull
  deriving DecidableEq, Repr

/-- The effect of one `SET` item on a row; a JavaScript boolean parameter is sent as the
SQL literal `true` or `false`, stored as `1` or `0`. -/
def applyAssignment (now : Nat) (row : TodoRow) : Assignment → TodoRow
  | Assignment.task value => { row with task := value }
  | Assignment.completed value => { row with completed := if value then 1 else 0 }
  | Assignment.completedAtNow => { row with completed_at := some now }
  | Assignment.completedAtNull => { row with completed_at := none }

/-- The statement `UPDATE todos SET <fields>, updated_at = CURRENT_TIMESTAMP WHERE todo_id = ?`. -/
def sqlUpdateTodos (now : Nat) (updateFields : List Assignment) (todoId : String) (db : Db) :
    Db :=
  { db with todos := db.todos.map (fun row =>
      if row.todo_id == todoId then
        { updateFields.foldl (applyAssignment now) row with updated_at := now }
      else row) }

/-- The statement `UPDATE users SET total_completed_tasks = total_completed_tasks + 1
WHERE user_id = ?`. -/
def sqlIncrementCount (userId : String) (db : Db) : Db :=
  { db with users := db.users.map (fun u =>
      if u.user_id == userId then
        { u with total_completed_tasks := u.total_completed_tasks + 1 }
      else u) }

/-- The statement `UPDATE users SET total_completed_tasks = GREATEST(0, total_completed_tasks - 1)
WHERE user_id = ?`. -/
def sqlDecrementCount (userId : String) (db : Db) : Db :=
  { db with users := db.users.map (fun u =>
      if u.user_id == userId then
        { u with total_completed_tasks := max 0 (u.total_completed_tasks - 1) }
      else u) }

/-- The statement `UPDATE users SET current_rank = ?, rank_upgraded_at = NOW() WHERE user_id = ?`. -/
def sqlUpdateRank (now : Nat) (newRank : Rank) (userId : String) (db : Db) : Db :=
  { db with users := db.users.map (fun u =>
      if u.user_id == userId then
        { u with current_rank := newRank, rank_upgraded_at := some now }
      else u) }

/-- The statement `INSERT INTO rank_upgrades (...) VALUES (?, ?, ?, ?, ?)`. -/
def sqlInsertUpgrade (now : Nat) (upgradeId userId : String) (fromRank toRank : Rank)
    (tasksCompleted : Int) (db : Db) : Db :=
  { db with rank_upgrades := db.rank_upgrades ++
      [{ upgrade_id := upgradeId, user_id := userId, from_rank := fromRank, to_rank := toRank,
         tasks_completed_at_upgrade := tasksCompleted, upgraded_at := now }] }

/-- The statement `DELETE FROM todos WHERE todo_id = ?`. -/
def sqlDeleteTodo (todoId : String) (db : Db) : Db :=
  { db with todos := db.todos.filter (fun t => !(t.todo_id == todoId)) }

/-- The statement `INSERT INTO todos (todo_id, user_id, task, completed) VALUES (?, ?, ?, ?)`
with `completed = false`; the other columns take their defaults. -/
def sqlInsertTodo (now : Nat) (todoId userId task : String) (db : Db) : Db :=
  { db with todos := db.todos ++
      [{ todo_id := todoId, user_id := userId, task := task, completed := 0,
         completed_at := none, created_at := now, updated_at := now }] }

/-! ## Rank service (`src/services/rankService.js`) -/

/-- The three shapes of object returned by `updateUserRank`:
`{ success: false, message }`, `{ success: true, upgraded: true, fromRank, toRank, rankInfo }`
and `{ success: true, upgraded: false, currentRank }`. -/
inductive RankUpdateResult
  | failure (message : String)
  | upgraded (fromRank toRank : Rank) (rankInfo : Threshold)
  | unchanged (currentRank : Rank)
  deriving DecidableEq, Repr

/-- The function `updateUserRank(userId, connection)` called with the connection of the
enclosing transaction (its only call site).  Every error raised inside its `try` block is
caught by its own `catch`, which returns `{ success: false, ... }`; the statements already
executed on the connection stay part of the caller's transaction. -/
def updateUserRank (env : Env) (userId : String) (db : Db) : RankUpdateResult × Db :=
  if env.fails Stmt.selectUser then (RankUpdateResult.failure "Failed to update rank", db)
  else
    match selectUsersById userId db with
    | [] => (RankUpdateResult.failure "User not found", db)
    | user :: _ =>
        let oldRank := user.current_rank
        let completedTasks := user.total_completed_tasks
        let newRank := calculateRank completedTasks
        let upgrade := checkRankUpgrade (user.total_completed_tasks - 1) completedTasks
        match upgrade with
        | none => (RankUpdateResult.unchanged newRank, db)
        | some info =>
            if info.upgraded then
              if env.fails Stmt.updateRank then
                (RankUpdateResult.failure "Failed to update rank", db)
              else
                let db1 := sqlUpdateRank env.now newRank userId db
                if env.fails Stmt.insertUpgrade then
                  (RankUpdateResult.failure "Failed to update rank", db1)
                else
                  let db2 := sqlInsertUpgrade env.now env.freshId userId oldRank newRank
                    completedTasks db1
                  (RankUpdateResult.upgraded oldRank newRank (RANK_THRESHOLDS newRank), db2)
            else (RankUpdateResult.unchanged newRank, db)

/-! ## Task controller (`src/controllers/todoController.js`) -/

/-- The body of `PUT /todos/{id}`, `{ task?: string, completed?: boolean }`; `none` is
`undefined`. -/
structure UpdateBody where
  task : Option String
  completed : Option Bool
  deriving DecidableEq, Repr

/-- The member `rankUpgrade` of the response of `updateTodo`. -/
structure RankUpgradeResponse where
  upgraded : Bool
  fromRank : Rank
  toRank : Rank
  rankInfo : Threshold
  deriving DecidableEq, Repr

/-- The HTTP response: `{ success: true, ... }` with its status, or
`{ success: false, message }` with its status. -/
inductive Response
  | success (status : Nat) (todo : Option TodoRow) (rankUpgrade : Option RankUpgradeResponse)
  | failure (status : Nat) (message : String)
  deriving DecidableEq, Repr

/-- Whether the response is `{ success: true, ... }`. -/
def Response.isSuccess : Response → Bool
  | Response.success _ _ _ => true
  | Response.failure _ _ => false

/-- The member `rankUpgrade` of a response, if any. -/
def Response.rankUpgrade? : Response → Option RankUpgradeResponse
  | Response.success _ _ r => r
  | Response.failure _ _ => none

/-- The block "Build update query" of `updateTodo`. -/
def buildUpdateFields (body : UpdateBody) (wasCompleted : JsVal) : List Assignment :=
  (match body.task with
   | some task => [Assignment.task (jsTrim task)]
   | none => []) ++
  (match body.completed with
   | some completed =>
       Assignment.completed completed ::
         (if (JsVal.bool completed).truthy && !wasCompleted.truthy then
            [Assignment.completedAtNow]
          else if !(JsVal.bool completed).truthy && wasCompleted.truthy then
            [Assignment.completedAtNull]
          else [])
   | none => [])

/-- The block "Update user's total_completed_tasks count if completion status changed" of
`updateTodo`; `none` means that a statement raised an error, which leaves the `try` block. -/
def rankBookkeeping (env : Env) (userId : String) (completed : Option Bool)
    (wasCompleted : JsVal) (db : Db) : Option (Option RankUpdateResult × Db) :=
  match completed with
  | none => some (none, db)
  | some completed =>
      if (JsVal.bool completed).strictNe wasCompleted then
        if (JsVal.bool completed).truthy then
          if env.fails Stmt.incrementCount then none
          else
            let r := updateUserRank env userId (sqlIncrementCount userId db)
            some (some r.1, r.2)
        else
          if env.fails Stmt.decrementCount then none
          else some (none, sqlDecrementCount userId db)
      else some (none, db)

/-- The block "Include rank upgrade info if it occurred" of `updateTodo`. -/
def rankUpgradeOf : Option RankUpdateResult → Option RankUpgradeResponse
  | some (RankUpdateResult.upgraded fromRank toRank rankInfo) =>
      some { upgraded := true, fromRank := fromRank, toRank := toRank, rankInfo := rankInfo }
  | _ => none

/-- The handler `updateTodo`.  The second component is the database after the request: the
working copy when `commit` is reached, the database as it was when the request returns early
or an error reaches the `catch` block (`rollback`). -/
def updateTodo (env : Env) (userId todoId : String) (body : UpdateBody) (db : Db) :
    Response × Db :=
  let serverError : Response × Db := (Response.failure 500 "Failed to update todo", db)
  if env.fails Stmt.getConnection then serverError
  else if env.fails Stmt.beginTransaction then serverError
  else if env.fails Stmt.selectTodo then serverError
  else
    match selectTodosById todoId db with
    | [] => (Response.failure 404 "Todo not found", db)
    | existing :: _ =>
        if existing.user_id != userId then
          (Response.failure 403 "Unauthorized to update this todo", db)
        else
          let wasCompleted := JsVal.num existing.completed
          let updateFields := buildUpdateFields body wasCompleted
          if updateFields.length = 0 then (Response.failure 400 "No fields to update", db)
          else if env.fails Stmt.updateTodos then serverError
          else
            let db1 := sqlUpdateTodos env.now updateFields todoId db
            match rankBookkeeping env userId body.completed wasCompleted db1 with
            | none => serverError
            | some (rankUpdateResult, db2) =>
                if env.fails Stmt.selectUpdatedTodo then serverError
                else
                  let updatedTodos := selectTodosById todoId db2
                  if env.fails Stmt.commit then serverError
                  else
                    (Response.success 200 updatedTodos.head? (rankUpgradeOf rankUpdateResult),
                      db2)

/-- The handler `deleteTodo`, with the same reading of the second component. -/
def deleteTodo (env : Env) (userId todoId : String) (db : Db) : Response × Db :=
  let serverError : Response × Db := (Response.failure 500 "Failed to delete todo", db)
  if env.fails Stmt.getConnection then serverError
  else if env.fails Stmt.beginTransaction then serverError
  else if env.fails Stmt.selectTodo then serverError
  else
    match selectTodosById todoId db with
    | [] => (Response.failure 404 "Todo not found", db)
    | existing :: _ =>
        if existing.user_id != userId then
          (Response.failure 403 "Unauthorized to delete this todo", db)
        else
          let wasCompleted := JsVal.num existing.completed
          if env.fails Stmt.deleteTodos then serverError
          else
            let db1 := sqlDeleteTodo todoId db
            if wasCompleted.truthy then
              if env.fails Stmt.decrementCount then serverError
              else
                let db2 := sqlDecrementCount userId db1
                if env.fails Stmt.commit then serverError
                else (Response.success 200 none none, db2)
            else
              if env.fails Stmt.commit then serverError
              else (Response.success 200 none none, db1)

/-- The handler `createTodo`; `task = none` is a body without `task`.  It opens no
transaction: the `INSERT` is final once executed. -/
def createTodo (env : Env) (userId : String) (task : Option String) (db : Db) :
    Response × Db :=
  match task with
  | none => (Response.failure 400 "Task is required", db)
  | some task =>
      if task = "" || jsTrim task = "" then (Response.failure 400 "Task is required", db)
      else
        let todoId := env.freshId
        if env.fails Stmt.getConnection then (Response.failure 500 "Failed to create todo", db)
        else if env.fails Stmt.insertTodo then
          (Response.failure 500 "Failed to create todo", db)
        else
          let db1 := sqlInsertTodo env.now todoId userId (jsTrim task) db
          if env.fails Stmt.selectNewTodo then
            (Response.failure 500 "Failed to create todo", db1)
          else
            (Response.success 201 (selectTodosById todoId db1).head? none, db1)

/-! ## Observations on a database -/

/-- The lifetime count stored for a user (`total_completed_tasks`). -/
def countOf (db : Db) (userId : String) : Option Int :=
  (selectUsersById userId db).head?.map (fun u => u.total_completed_tasks)

/-- The tier stored for a user (`current_rank`). -/
def tierOf (db : Db) (userId : String) : Option Rank :=
  (selectUsersById userId db).head?.map (fun u => u.current_rank)

/-- The upgrade events of a user, in insertion order. -/
def eventsOf (db : Db) (userId : String) : List RankUpgradeRow :=
  db.rank_upgrades.filter (fun e => e.user_id == userId)

/-- The task with a given identifier. -/
def todoOf (db : Db) (todoId : String) : Option TodoRow :=
  (selectTodosById todoId db).head?

/-! ## Sequences of completions and sample databases -/

/-- One `PUT /todos/{id}` request with `completed: true`, in an environment in which every
statement executes. -/
structure CompleteStep where
  now : Nat
  freshId : String
  todoId : String
  task : Option String
  deriving DecidableEq, Repr

/-- The requests of a list of steps issued one after the other by one user: the responses,
in order, and the database after the last one. -/
def runCompletions (userId : String) : List CompleteStep → Db → List Response × Db
  | [], db => ([], db)
  | s :: rest, db =>
      let r := updateTodo (Env.sound s.now s.freshId) userId s.todoId
        { task := s.task, completed := some true } db
      let rs := runCompletions userId rest r.2
      (r.1 :: rs.1, rs.2)

/-- The five tier crossings: source tier, destination tier, count at the crossing. -/
def crossings : List (Rank × Rank × Int) :=
  [(Rank.iron, Rank.silver, 10), (Rank.silver, Rank.gold, 25), (Rank.gold, Rank.diamond, 50),
   (Rank.diamond, Rank.platinum, 100), (Rank.platinum, Rank.todo_master, 200)]

/-- What an upgrade event records: source tier, destination tier, count. -/
def RankUpgradeRow.summary (e : RankUpgradeRow) : Rank × Rank × Int :=
  (e.from_rank, e.to_rank, e.tasks_completed_at_upgrade)

/-- A database with one user and one task of that user. -/
def sampleDb (count : Int) (tier : Rank) (completed : Int) (completedAt : Option Nat) : Db :=
  { todos := [{ todo_id := "t1", user_id := "u1", task := "write report",
                completed := completed, completed_at := completedAt, created_at := 1,
                updated_at := 1 }],
    users := [{ user_id := "u1", username := "ann", current_rank := tier,
                total_completed_tasks := count, rank_upgraded_at := none }],
    rank_upgrades := [] }

/-- An environment in which exactly the statement `s` raises an error. -/
def Env.failing (now : Nat) (freshId : String) (s : Stmt) : Env :=
  { now := now, freshId := freshId, fails := fun x => decide (x = s) }

/-- A task of user `u1` that is not completed. -/
def sampleTask (todoId : String) : TodoRow :=
  { todo_id := todoId, user_id := "u1", task := "task", completed := 0, completed_at := none,
    created_at := 1, updated_at := 1 }

/-- Ten task identifiers. -/
def tenIds : List String := ["a", "b", "c", "d", "e", "f", "g", "h", "i", "j"]

/-- A fresh user `u1` with ten tasks, none completed. -/
def tenTasksDb : Db :=
  { todos := tenIds.map sampleTask,
    users := [{ user_id := "u1", username := "ann", current_rank := Rank.iron,
                total_completed_tasks := 0, rank_upgraded_at := none }],
    rank_upgrades := [] }

/-- One completion request for each of the ten tasks. -/
def tenSteps : List CompleteStep :=
  tenIds.map (fun i => { now := 5, freshId := "up_" ++ i, todoId := i, task := none })

/-! ## Reading a task, and requests in sequence -/

/-- The HTTP status of a response. -/
def Response.status : Response → Nat
  | Response.success status _ _ => status
  | Response.failure status _ => status

/-- The handler `getTodoById`: one `SELECT` outside any transaction, then the existence and
ownership checks. -/
def getTodoById (env : Env) (userId todoId : String) (db : Db) : Response × Db :=
  if env.fails Stmt.getConnection then (Response.failure 500 "Failed to retrieve todo", db)
  else if env.fails Stmt.selectTodo then (Response.failure 500 "Failed to retrieve todo", db)
  else
    match selectTodosById todoId db with
    | [] => (Response.failure 404 "Todo not found", db)
    | todo :: _ =>
        if todo.user_id != userId then
          (Response.failure 403 "Unauthorized to access this todo", db)
        else (Response.success 200 (some todo) none, db)

/-- The lookup of the task at the start of `updateTodo` and `deleteTodo` executes: the
connection, the transaction and the `SELECT` raise no error. -/
def lookupExecutes (env : Env) : Bool :=
  !env.fails Stmt.getConnection && !env.fails Stmt.beginTransaction &&
    !env.fails Stmt.selectTodo

/-- The lookup of `getTodoById` executes: the connection and the `SELECT` raise no error. -/
def readExecutes (env : Env) : Bool :=
  !env.fails Stmt.getConnection && !env.fails Stmt.selectTodo

/-- A request to one of the writing routes of `todoRoutes.js` (`POST /`, `PUT /:todoId`,
`DELETE /:todoId`), with the authenticated caller and the environment it runs in. -/
inductive Request
  | create (env : Env) (userId : String) (task : Option String)
  | update (env : Env) (userId todoId : String) (body : UpdateBody)
  | delete (env : Env) (userId todoId : String)

/-- The handler a request is routed to. -/
def Request.handle : Request → Db → Response × Db
  | Request.create env userId task, db => createTodo env userId task db
  | Request.update env userId todoId body, db => updateTodo env userId todoId body db
  | Request.delete env userId todoId, db => deleteTodo env userId todoId db

/-- The requests of a list handled one after the other: the responses, in order, and the
database after the last one. -/
def runRequests : List Request → Db → List Response × Db
  | [], db => ([], db)
  | r :: rest, db =>
      let first := r.handle db
      let others := runRequests rest first.2
      (first.1 :: others.1, others.2)

/-- No request of the list lowers the lifetime count stored for the user. -/
def countNeverDrops (userId : String) : List Request → Db → Bool
  | [], _ => true
  | r :: rest, db =>
      (match countOf db userId, countOf (r.handle db).2 userId with
       | some before, some after => decide (before ≤ after)
       | _, _ => true) &&
      countNeverDrops userId rest (r.handle db).2

/-- The counts recorded in the upgrade events of a user, in insertion order. -/
def eventCounts (db : Db) (userId : String) : List Int :=
  (eventsOf db userId).map (fun e => e.tasks_completed_at_upgrade)

/-- Twenty-five task identifiers. -/
def manyIds : List String :=
  ["a", "b", "c", "d", "e", "f", "g", "h", "i", "j", "k", "l", "m", "n", "o", "p", "q", "r",
   "s", "t", "u", "v", "w", "x", "y"]

/-- A fresh user `u1` with twenty-five tasks, none completed. -/
def manyTasksDb : Db :=
  { todos := manyIds.map sampleTask,
    users := [{ user_id := "u1", username := "ann", current_rank := Rank.iron,
                total_completed_tasks := 0, rank_upgraded_at := none }],
    rank_upgrades := [] }

/-- The request of `u1` that sets the completion flag of a task, every statement
executing. -/
def setCompleted (completed : Bool) (todoId : String) : Request :=
  Request.update (Env.sound 5 ("up_" ++ todoId)) "u1" todoId
    { task := none, completed := some completed }

/-- User `u1` completes the twenty-five tasks, un-completes sixteen of them, and completes
one of those again. -/
def recrossRequests : List Request :=
  manyIds.map (setCompleted true) ++ (manyIds.take 16).map (setCompleted false) ++
    [setCompleted true "a"]

/-- The request of `u1` that completes a task while the `INSERT INTO rank_upgrades` raises
an error and every other statement executes. -/
def completeInsertFailing (todoId : String) : Request :=
  Request.update (Env.failing 5 ("up_" ++ todoId) Stmt.insertUpgrade) "u1" todoId
    { task := none, completed := some true }

/-! ## Leaderboard limit (`src/controllers/rankController.js`) -/

/-- The value of a character as a digit: `0`-`9`, then `a`-`z` or `A`-`Z` from ten on. -/
def digitValue (c : Char) : Option Nat :=
  let n := c.toNat
  if 48 ≤ n ∧ n ≤ 57 then some (n - 48)
  else if 97 ≤ n ∧ n ≤ 122 then some (n - 87)
  else if 65 ≤ n ∧ n ≤ 90 then some (n - 55)
  else none

/-- The digits of the longest prefix made of digits of the radix. -/
def takeDigits (radix : Nat) : List Char → List Nat
  | [] => []
  | c :: rest =>
      match digitValue c with
      | some d => if d < radix then d :: takeDigits radix rest else []
      | none => []

/-- How many low bits a natural number has beyond the 53 bits of a double's significand;
`fuel` bounds the number of bits. -/
def excessBits : Nat → Nat → Nat
  | 0, _ => 0
  | fuel + 1, n => if n < 2 ^ 53 then 0 else 1 + excessBits fuel (n / 2)

/-- The double nearest to a natural number (ties to the even significand): the number itself
below `2^53`.  Numbers beyond the largest finite double, which `parseInt` turns into
`Infinity`, are not distinguished. -/
def toDouble (fuel n : Nat) : Nat :=
  let e := excessBits fuel n
  if e = 0 then n
  else
    let q := n / 2 ^ e
    let r := n % 2 ^ e
    let half := 2 ^ (e - 1)
    if r > half ∨ (r = half ∧ q % 2 = 1) then (q + 1) * 2 ^ e else q * 2 ^ e

/-- The function `parseInt(string)` without a radix argument: leading white space is
skipped, then an optional sign, then `0x` or `0X` selects radix 16 (radix 10 otherwise), then
the longest prefix of digits is read; `none` is `NaN` (no digit).  The result is the double
nearest to the integer read (the integer itself below `2^53`); `-0` is `0`. -/
def jsParseInt (s : String) : Option Int :=
  let trimmed := s.data.dropWhile jsIsWhitespace
  let sign : Int := match trimmed with
    | '-' :: _ => -1
    | _ => 1
  let unsigned := match trimmed with
    | '-' :: rest => rest
    | '+' :: rest => rest
    | _ => trimmed
  let radixAndDigits : Nat × List Char := match unsigned with
    | '0' :: 'x' :: rest => (16, rest)
    | '0' :: 'X' :: rest => (16, rest)
    | _ => (10, unsigned)
  let digits := takeDigits radixAndDigits.1 radixAndDigits.2
  if digits.isEmpty then none
  else
    some (sign * ((toDouble (4 * digits.length)
      (digits.foldl (fun acc d => acc * radixAndDigits.1 + d) 0) : Nat) : Int))

/-- The line `const limit = parseInt(req.query.limit) || 10` of `getLeaderboard`, the value
bound to `LIMIT ?`; `none` is an absent query parameter (`undefined`, which `parseInt`
reads as the string `undefined`).  `NaN` and `0` are falsy. -/
def leaderboardLimit (limit : Option String) : Int :=
  match jsParseInt (match limit with
    | some s => s
    | none => "undefined") with
  | none => 10
  | some n => if n = 0 then 10 else n

/-! # Theorems -/

/-! ## Closed form of the rank lookup -/

theorem calculateRank_closed (c : Int) :
    calculateRank c =
      if c < 10 then Rank.iron
      else if c < 25 then Rank.silver
      else if c < 50 then Rank.gold
      else if c < 100 then Rank.diamond
      else if c < 200 then Rank.platinum
      else Rank.todo_master := by
  simp only [calculateRank, calculateRankLoop, RANK_ORDER, inThreshold, RANK_THRESHOLDS,
    Bool.and_eq_true, decide_eq_true_eq, Bool.and_true]
  split_ifs <;> first | rfl | (exfalso; omega)

theorem inThreshold_iff (r : Rank) (c : Int) :
    inThreshold (RANK_THRESHOLDS r) c = true ↔
      (RANK_THRESHOLDS r).min ≤ c ∧ ∀ mx, (RANK_THRESHOLDS r).max = some mx → c ≤ mx := by
  cases r <;> simp [inThreshold, RANK_THRESHOLDS]

/-- C1: for every non-negative count `c`, `calculateRank c` is a tier of `RANK_ORDER` whose
inclusive range in `RANK_THRESHOLDS` contains `c`, and it is the only tier whose range
contains `c` (no gap, no overlap); the counts 9/10, 24/25, 49/50, 99/100 and 199/200 fall
into adjacent, different tiers. -/
theorem calculateRank_unique_tier (c : Int) (hc : 0 ≤ c) :
    calculateRank c ∈ RANK_ORDER ∧
    inThreshold (RANK_THRESHOLDS (calculateRank c)) c = true ∧
    (∀ r : Rank, inThreshold (RANK_THRESHOLDS r) c = true → r = calculateRank c) ∧
    (calculateRank 9 = Rank.iron ∧ calculateRank 10 = Rank.silver) ∧
    (calculateRank 24 = Rank.silver ∧ calculateRank 25 = Rank.gold) ∧
    (calculateRank 49 = Rank.gold ∧ calculateRank 50 = Rank.diamond) ∧
    (calculateRank 99 = Rank.diamond ∧ calculateRank 100 = Rank.platinum) ∧
    (calculateRank 199 = Rank.platinum ∧ calculateRank 200 = Rank.todo_master) := by
  refine ⟨?_, ?_, ?_, ?_⟩
  · cases calculateRank c <;> simp [RANK_ORDER]
  · rw [calculateRank_closed]
    split_ifs <;> simp [inThreshold, RANK_THRESHOLDS] <;> omega
  · intro r hr
    rw [calculateRank_closed]
    cases r <;> simp [inThreshold, RANK_THRESHOLDS] at hr <;>
      split_ifs <;> first | rfl | (exfalso; omega)
  · simp only [calculateRank_closed]
    decide

/-- Witness of C1 at the count 10. -/
theorem calculateRank_unique_tier_witness :
    (0 : Int) ≤ 10 ∧ calculateRank 10 = Rank.silver ∧
      inThreshold (RANK_THRESHOLDS (calculateRank 10)) 10 = true :=
  ⟨by decide, by decide, (calculateRank_unique_tier 10 (by decide)).2.1⟩

/-- C2: `checkRankUpgrade p n` is `null` exactly when both counts have the same tier, and is
otherwise the transition from `calculateRank p` to `calculateRank n`; it is `null` on equal
counts, `iron -> silver` on (9, 10) and `platinum -> todo_master` on (199, 200). -/
theorem checkRankUpgrade_spec (p n : Int) :
    (checkRankUpgrade p n = none ↔ calculateRank p = calculateRank n) ∧
    (checkRankUpgrade p n =
      if calculateRank p = calculateRank n then none
      else some { fromRank := calculateRank p, toRank := calculateRank n, upgraded := true }) ∧
    checkRankUpgrade p p = none ∧
    checkRankUpgrade 9 10 =
      some { fromRank := Rank.iron, toRank := Rank.silver, upgraded := true } ∧
    checkRankUpgrade 199 200 =
      some { fromRank := Rank.platinum, toRank := Rank.todo_master, upgraded := true } := by
  refine ⟨?_, ?_, ?_, ?_, ?_⟩
  · unfold checkRankUpgrade
    by_cases h : calculateRank p = calculateRank n <;> simp [h]
  · unfold checkRankUpgrade
    by_cases h : calculateRank p = calculateRank n <;> simp [h]
  · simp [checkRankUpgrade]
  · decide
  · decide
/-! ## Rounding of the progress percentage -/

theorem floor_half_stable (x y : ℚ) (j : ℤ) (hy : 3 * y = j) (hxy : |x - y| < 1 / 6) :
    mathRound x = mathRound y := by
  unfold mathRound
  have h1 : ((⌊y + 1 / 2⌋ : ℤ) : ℚ) ≤ y + 1 / 2 := Int.floor_le _
  have h2 : y + 1 / 2 < ((⌊y + 1 / 2⌋ : ℤ) : ℚ) + 1 := Int.lt_floor_add_one _
  generalize ⌊y + 1 / 2⌋ = m at h1 h2
  have e : y = (j : ℚ) / 3 := by linarith
  have h3 : ((6 * m : ℤ) : ℚ) ≤ ((2 * j + 3 : ℤ) : ℚ) := by push_cast; linarith
  have h4 : ((2 * j + 3 : ℤ) : ℚ) < ((6 * m + 6 : ℤ) : ℚ) := by push_cast; linarith
  have h3i : 6 * m ≤ 2 * j + 3 := by exact_mod_cast h3
  have h4i : 2 * j + 3 < 6 * m + 6 := by exact_mod_cast h4
  have h5i : 6 * m + 1 ≤ 2 * j + 3 := by omega
  have h6i : 2 * j + 3 ≤ 6 * m + 5 := by omega
  have h5 : ((6 * m + 1 : ℤ) : ℚ) ≤ ((2 * j + 3 : ℤ) : ℚ) := by exact_mod_cast h5i
  have h6 : ((2 * j + 3 : ℤ) : ℚ) ≤ ((6 * m + 5 : ℤ) : ℚ) := by exact_mod_cast h6i
  push_cast at h5 h6
  have hx := abs_lt.mp hxy
  rw [Int.floor_eq_iff]
  constructor <;> linarith [hx.1, hx.2]

theorem double_error (fl : ℚ → ℚ) (hfl : IsDoubleRounding fl) (u : ℚ)
    (h0 : u = 0 ∨ 1 / 100 ≤ u) (h1 : u ≤ 1) :
    |fl (fl u * 100) - 100 * u| < 1 / 1000000 := by
  have hp : (0 : ℚ) < 2 ^ 53 := by positivity
  rcases h0 with h0 | h0
  · subst h0
    have e1 := hfl 0 (Or.inl rfl)
    simp only [sub_zero, abs_zero, zero_div] at e1
    have z1 : fl 0 = 0 := abs_eq_zero.mp (le_antisymm e1 (abs_nonneg _))
    rw [z1]
    simp only [zero_mul, z1, mul_zero, sub_zero, abs_zero]
    norm_num
  · have hu0 : (0 : ℚ) ≤ u := by linarith
    have e1 := hfl u (Or.inr (by
      rw [abs_of_nonneg hu0]
      constructor
      · norm_num; linarith
      · norm_num; linarith))
    rw [abs_of_nonneg hu0] at e1
    have b1 : |fl u - u| ≤ 1 / 2 ^ 53 :=
      le_trans e1 (div_le_div_of_nonneg_right h1 (le_of_lt hp))
    have c1 := abs_le.mp b1
    have hbig : (1 : ℚ) / 2 ^ 53 ≤ 1 / 1000000000 := by norm_num
    have hvlo : (99 : ℚ) / 100 ≤ fl u * 100 := by linarith [c1.1]
    have hvhi : fl u * 100 ≤ 200 := by linarith [c1.2]
    have hvabs : |fl u * 100| = fl u * 100 := abs_of_nonneg (by linarith)
    have e2 := hfl (fl u * 100) (Or.inr (by
      rw [hvabs]
      constructor
      · norm_num; linarith
      · norm_num; linarith))
    rw [hvabs] at e2
    have b2 : |fl (fl u * 100) - fl u * 100| ≤ 200 / 2 ^ 53 :=
      le_trans e2 (div_le_div_of_nonneg_right hvhi (le_of_lt hp))
    have hbig2 : (200 : ℚ) / 2 ^ 53 ≤ 1 / 10000000 := by norm_num
    have c2 := abs_le.mp b2
    rw [abs_lt]
    constructor <;> linarith [c1.1, c1.2, c2.1, c2.2]

theorem progress_core (fl : ℚ → ℚ) (hfl : IsDoubleRounding fl) (a b k : ℤ) (ha : 0 ≤ a)
    (hab : a < b) (hb : b ≤ 100) (hk : b * k = 300) :
    mathRound (min 100 (fl (fl ((a : ℚ) / (b : ℚ)) * 100))) =
        mathRound (100 * (a : ℚ) / (b : ℚ)) ∧
      0 ≤ mathRound (100 * (a : ℚ) / (b : ℚ)) ∧
      mathRound (100 * (a : ℚ) / (b : ℚ)) ≤ 100 := by
  have hbpos : (0 : ℚ) < (b : ℚ) := by exact_mod_cast (lt_of_le_of_lt ha hab)
  have haq : (0 : ℚ) ≤ (a : ℚ) := by exact_mod_cast ha
  have habq : (a : ℚ) + 1 ≤ (b : ℚ) := by exact_mod_cast hab
  have hbq : (b : ℚ) ≤ 100 := by exact_mod_cast hb
  have hkq : (b : ℚ) * (k : ℚ) = 300 := by exact_mod_cast hk
  have hu0 : (0 : ℚ) ≤ (a : ℚ) / (b : ℚ) := div_nonneg haq (le_of_lt hbpos)
  have hu1 : (a : ℚ) / (b : ℚ) ≤ 1 := by
    rw [div_le_one hbpos]; linarith
  have hu2 : (a : ℚ) / (b : ℚ) = 0 ∨ 1 / 100 ≤ (a : ℚ) / (b : ℚ) := by
    rcases eq_or_lt_of_le ha with h | h
    · left; rw [← h]; simp
    · right
      have ha1 : (1 : ℚ) ≤ (a : ℚ) := by exact_mod_cast h
      rw [le_div_iff₀ hbpos]
      linarith
  have herr := double_error fl hfl _ hu2 hu1
  have hy : 100 * ((a : ℚ) / (b : ℚ)) = 100 * (a : ℚ) / (b : ℚ) := by ring
  rw [hy] at herr
  have hy99 : 100 * (a : ℚ) / (b : ℚ) ≤ 99 := by
    rw [div_le_iff₀ hbpos]; nlinarith
  have hy0 : (0 : ℚ) ≤ 100 * (a : ℚ) / (b : ℚ) := by positivity
  have hx := abs_lt.mp herr
  have hmin : min 100 (fl (fl ((a : ℚ) / (b : ℚ)) * 100)) = fl (fl ((a : ℚ) / (b : ℚ)) * 100) := by
    apply min_eq_right; linarith [hx.2]
  have h3 : 3 * (100 * (a : ℚ) / (b : ℚ)) = ((k * a : ℤ) : ℚ) := by
    push_cast
    field_simp
    nlinarith
  refine ⟨?_, ?_, ?_⟩
  · rw [hmin]
    apply floor_half_stable _ _ (k * a) h3
    rw [abs_lt]; constructor <;> linarith [hx.1, hx.2]
  · unfold mathRound
    apply Int.floor_nonneg.mpr; linarith
  · unfold mathRound
    have : ⌊100 * (a : ℚ) / (b : ℚ) + 1 / 2⌋ < 101 := by
      rw [Int.floor_lt]; push_cast; linarith
    omega

theorem getRankProgress_of_rank (fl : ℚ → ℚ) (c : Int) (r nxt : Rank)
    (hr : calculateRank c = r)
    (hi : RANK_ORDER.indexOf r ≠ RANK_ORDER.length - 1)
    (hn : RANK_ORDER.get? (RANK_ORDER.indexOf r + 1) = some nxt) :
    getRankProgress fl c =
      some { currentRank := r, nextRank := some nxt,
             progress := mathRound (progressValue fl (RANK_THRESHOLDS r) c),
             tasksToNext := (RANK_THRESHOLDS nxt).min - c, isMaxRank := false } := by
  unfold getRankProgress
  simp only [hr, hn, if_neg hi]

/-- The function `Math.round` gives the nearest integer, ties toward positive infinity. -/
theorem mathRound_nearest (x : ℚ) :
    (mathRound x : ℚ) - 1 / 2 ≤ x ∧ x < (mathRound x : ℚ) + 1 / 2 := by
  unfold mathRound
  have h1 : ((⌊x + 1 / 2⌋ : ℤ) : ℚ) ≤ x + 1 / 2 := Int.floor_le _
  have h2 : x + 1 / 2 < ((⌊x + 1 / 2⌋ : ℤ) : ℚ) + 1 := Int.lt_floor_add_one _
  constructor <;> linarith

/-- The rounded percentage as an integer quotient. -/
theorem mathRound_percent (a b : ℤ) (hb : 0 < b) :
    mathRound (100 * (a : ℚ) / (b : ℚ)) = (200 * a + b) / (2 * b) := by
  unfold mathRound
  have hbq : (0 : ℚ) < (b : ℚ) := by exact_mod_cast hb
  have hd : (0 : ℤ) < 2 * b := by omega
  have e1 := Int.emod_add_ediv (200 * a + b) (2 * b)
  have e2 := Int.emod_nonneg (200 * a + b) (ne_of_gt hd)
  have e3 := Int.emod_lt_of_pos (200 * a + b) hd
  generalize (200 * a + b) / (2 * b) = m at e1 ⊢
  generalize (200 * a + b) % (2 * b) = r at e1 e2 e3
  have k1 : 2 * b * m ≤ 200 * a + b := by omega
  have k2 : 200 * a + b < 2 * b * m + 2 * b := by omega
  have q1 : (2 : ℚ) * b * m ≤ 200 * a + b := by exact_mod_cast k1
  have q2 : (200 : ℚ) * a + b < 2 * b * m + 2 * b := by exact_mod_cast k2
  have hx : 100 * (a : ℚ) / (b : ℚ) + 1 / 2 = (200 * a + b) / (2 * b) := by
    field_simp; ring
  rw [Int.floor_eq_iff, hx]
  constructor
  · rw [le_div_iff₀ (by linarith)]; linarith
  · rw [div_lt_iff₀ (by linarith)]; linarith

/-- C7: in a non-terminal tier with bounds `[tierMin, tierMax]` the reported progress is
`round(100 * (count - tierMin) / (tierMax - tierMin + 1))` clamped to at most 100: it is the
integer quotient `(200 * (count - tierMin) + n) / (2 * n)` with `n = tierMax - tierMin + 1`
clamped to at most 100, it is the integer nearest to the exact percentage (ties upward), and
it lies between 0 and 100; in the terminal tier (count at least 200) the result is
`nextRank = null`, `progress = 100`, `tasksToNext = 0`, `isMaxRank = true`.  The double
arithmetic of the source is any rounding `fl` with relative error at most `2^-53`. -/
theorem getRankProgress_spec (fl : ℚ → ℚ) (hfl : IsDoubleRounding fl) (c : Int)
    (hc : 0 ≤ c) :
    (∀ mx : Int, (RANK_THRESHOLDS (calculateRank c)).max = some mx →
      ∃ p, getRankProgress fl c = some p ∧
        p.progress =
          min 100 ((200 * (c - (RANK_THRESHOLDS (calculateRank c)).min) +
              (mx - (RANK_THRESHOLDS (calculateRank c)).min + 1)) /
            (2 * (mx - (RANK_THRESHOLDS (calculateRank c)).min + 1))) ∧
        (p.progress : ℚ) - 1 / 2 ≤
          100 * ((c - (RANK_THRESHOLDS (calculateRank c)).min : Int) : ℚ) /
            ((mx - (RANK_THRESHOLDS (calculateRank c)).min + 1 : Int) : ℚ) ∧
        100 * ((c - (RANK_THRESHOLDS (calculateRank c)).min : Int) : ℚ) /
            ((mx - (RANK_THRESHOLDS (calculateRank c)).min + 1 : Int) : ℚ) <
          (p.progress : ℚ) + 1 / 2 ∧
        0 ≤ p.progress ∧ p.progress ≤ 100) ∧
    (200 ≤ c →
      getRankProgress fl c =
        some { currentRank := Rank.todo_master, nextRank := none, progress := 100,
               tasksToNext := 0, isMaxRank := true }) := by
  have hcr := calculateRank_closed c
  have key : ∀ (r nxt : Rank) (tmin mx k : Int), calculateRank c = r →
      RANK_ORDER.indexOf r ≠ RANK_ORDER.length - 1 →
      RANK_ORDER.get? (RANK_ORDER.indexOf r + 1) = some nxt →
      (RANK_THRESHOLDS r).min = tmin → (RANK_THRESHOLDS r).max = some mx →
      0 ≤ c - tmin → c - tmin < mx - tmin + 1 → mx - tmin + 1 ≤ 100 →
      (mx - tmin + 1) * k = 300 →
      ∃ p, getRankProgress fl c = some p ∧
        p.progress = min 100 ((200 * (c - tmin) + (mx - tmin + 1)) /
          (2 * (mx - tmin + 1))) ∧
        (p.progress : ℚ) - 1 / 2 ≤
          100 * ((c - tmin : Int) : ℚ) / ((mx - tmin + 1 : Int) : ℚ) ∧
        100 * ((c - tmin : Int) : ℚ) / ((mx - tmin + 1 : Int) : ℚ) <
          (p.progress : ℚ) + 1 / 2 ∧
        0 ≤ p.progress ∧ p.progress ≤ 100 := by
    intro r nxt tmin mx k hr hi hn hmin hmax h0 h1 h2 hk
    obtain ⟨k1, k2, k3⟩ := progress_core fl hfl (c - tmin) (mx - tmin + 1) k h0 h1 h2 hk
    have hpos : 0 < mx - tmin + 1 := by omega
    have hdiv := mathRound_percent (c - tmin) (mx - tmin + 1) hpos
    have hnear := mathRound_nearest (100 * ((c - tmin : Int) : ℚ) / ((mx - tmin + 1 : Int) : ℚ))
    have hval : mathRound (progressValue fl (RANK_THRESHOLDS r) c) =
        mathRound (100 * ((c - tmin : Int) : ℚ) / ((mx - tmin + 1 : Int) : ℚ)) := by
      simp only [progressValue, hmin, hmax]
      exact k1
    refine ⟨_, getRankProgress_of_rank fl c r nxt hr hi hn, ?_, ?_, ?_, ?_, ?_⟩
    · simp only [hval]
      rw [hdiv] at k3 ⊢
      rw [min_eq_right k3]
    · simp only [hval]; exact hnear.1
    · simp only [hval]; exact hnear.2
    · simp only [hval]; exact k2
    · simp only [hval]; exact k3
  constructor
  · intro mx hmx
    split_ifs at hcr with h1 h2 h3 h4 h5
    · rw [hcr] at hmx ⊢
      simp only [RANK_THRESHOLDS, Option.some.injEq] at hmx
      subst hmx
      exact key Rank.iron Rank.silver 0 9 30 hcr (by decide) (by decide) rfl rfl (by omega)
        (by omega) (by omega) (by norm_num)
    · rw [hcr] at hmx ⊢
      simp only [RANK_THRESHOLDS, Option.some.injEq] at hmx
      subst hmx
      exact key Rank.silver Rank.gold 10 24 20 hcr (by decide) (by decide) rfl rfl (by omega)
        (by omega) (by omega) (by norm_num)
    · rw [hcr] at hmx ⊢
      simp only [RANK_THRESHOLDS, Option.some.injEq] at hmx
      subst hmx
      exact key Rank.gold Rank.diamond 25 49 12 hcr (by decide) (by decide) rfl rfl (by omega)
        (by omega) (by omega) (by norm_num)
    · rw [hcr] at hmx ⊢
      simp only [RANK_THRESHOLDS, Option.some.injEq] at hmx
      subst hmx
      exact key Rank.diamond Rank.platinum 50 99 6 hcr (by decide) (by decide) rfl rfl
        (by omega) (by omega) (by omega) (by norm_num)
    · rw [hcr] at hmx ⊢
      simp only [RANK_THRESHOLDS, Option.some.injEq] at hmx
      subst hmx
      exact key Rank.platinum Rank.todo_master 100 199 3 hcr (by decide) (by decide) rfl rfl
        (by omega) (by omega) (by omega) (by norm_num)
    · rw [hcr] at hmx
      simp [RANK_THRESHOLDS] at hmx
  · intro h200
    have hr : calculateRank c = Rank.todo_master := by
      rw [hcr]; split_ifs <;> first | rfl | (exfalso; omega)
    unfold getRankProgress
    simp only [hr]
    rfl

/-! ## Statements and observations -/

theorem head?_filter_map_key {α : Type} (p : α → Bool) (f g : α → α)
    (hf : ∀ a, p (f a) = p a) (hg : ∀ a, p a = true → f a = g a) (l : List α) :
    ((l.map f).filter p).head? = ((l.filter p).head?).map g := by
  induction l with
  | nil => rfl
  | cons a l ih =>
      by_cases h : p a = true
      · have h2 : p (f a) = true := by rw [hf, h]
        simp only [List.map_cons, List.filter_cons, h, h2, if_true, List.head?_cons,
          Option.map_some']
        rw [hg a h]
      · have h2 : ¬ p (f a) = true := by rw [hf]; exact h
        simp only [List.map_cons, List.filter_cons, h, h2, if_false]
        simpa using ih

theorem countOf_increment (db : Db) (u : String) :
    countOf (sqlIncrementCount u db) u = (countOf db u).map (fun c => c + 1) := by
  unfold countOf selectUsersById sqlIncrementCount
  simp only
  rw [head?_filter_map_key (fun r : UserRow => r.user_id == u) _
    (fun r => { r with total_completed_tasks := r.total_completed_tasks + 1 })]
  · cases (List.filter (fun r : UserRow => r.user_id == u) db.users).head? <;> rfl
  · intro a; by_cases h : (a.user_id == u) = true <;> simp [h]
  · intro a h; simp [h]

theorem tierOf_increment (db : Db) (u : String) :
    tierOf (sqlIncrementCount u db) u = tierOf db u := by
  unfold tierOf selectUsersById sqlIncrementCount
  simp only
  rw [head?_filter_map_key (fun r : UserRow => r.user_id == u) _
    (fun r => { r with total_completed_tasks := r.total_completed_tasks + 1 })]
  · cases (List.filter (fun r : UserRow => r.user_id == u) db.users).head? <;> rfl
  · intro a; by_cases h : (a.user_id == u) = true <;> simp [h]
  · intro a h; simp [h]

theorem countOf_decrement (db : Db) (u : String) :
    countOf (sqlDecrementCount u db) u = (countOf db u).map (fun c => max 0 (c - 1)) := by
  unfold countOf selectUsersById sqlDecrementCount
  simp only
  rw [head?_filter_map_key (fun r : UserRow => r.user_id == u) _
    (fun r => { r with total_completed_tasks := max 0 (r.total_completed_tasks - 1) })]
  · cases (List.filter (fun r : UserRow => r.user_id == u) db.users).head? <;> rfl
  · intro a; by_cases h : (a.user_id == u) = true <;> simp [h]
  · intro a h; simp [h]

theorem tierOf_decrement (db : Db) (u : String) :
    tierOf (sqlDecrementCount u db) u = tierOf db u := by
  unfold tierOf selectUsersById sqlDecrementCount
  simp only
  rw [head?_filter_map_key (fun r : UserRow => r.user_id == u) _
    (fun r => { r with total_completed_tasks := max 0 (r.total_completed_tasks - 1) })]
  · cases (List.filter (fun r : UserRow => r.user_id == u) db.users).head? <;> rfl
  · intro a; by_cases h : (a.user_id == u) = true <;> simp [h]
  · intro a h; simp [h]

theorem countOf_updateRank (db : Db) (u : String) (now : Nat) (r : Rank) :
    countOf (sqlUpdateRank now r u db) u = countOf db u := by
  unfold countOf selectUsersById sqlUpdateRank
  simp only
  rw [head?_filter_map_key (fun r : UserRow => r.user_id == u) _
    (fun x => { x with current_rank := r, rank_upgraded_at := some now })]
  · cases (List.filter (fun r : UserRow => r.user_id == u) db.users).head? <;> rfl
  · intro a; by_cases h : (a.user_id == u) = true <;> simp [h]
  · intro a h; simp [h]

theorem tierOf_updateRank (db : Db) (u : String) (now : Nat) (r : Rank) :
    tierOf (sqlUpdateRank now r u db) u = (tierOf db u).map (fun _ => r) := by
  unfold tierOf selectUsersById sqlUpdateRank
  simp only
  rw [head?_filter_map_key (fun r : UserRow => r.user_id == u) _
    (fun x => { x with current_rank := r, rank_upgraded_at := some now })]
  · cases (List.filter (fun r : UserRow => r.user_id == u) db.users).head? <;> rfl
  · intro a; by_cases h : (a.user_id == u) = true <;> simp [h]
  · intro a h; simp [h]

theorem countOf_congr (db db2 : Db) (u : String) (h : db2.users = db.users) :
    countOf db2 u = countOf db u := by
  unfold countOf selectUsersById; rw [h]

theorem tierOf_congr (db db2 : Db) (u : String) (h : db2.users = db.users) :
    tierOf db2 u = tierOf db u := by
  unfold tierOf selectUsersById; rw [h]

theorem eventsOf_congr (db db2 : Db) (u : String) (h : db2.rank_upgrades = db.rank_upgrades) :
    eventsOf db2 u = eventsOf db u := by
  unfold eventsOf; rw [h]

theorem eventsOf_insertUpgrade (db : Db) (u upgradeId : String) (now : Nat) (a b : Rank)
    (n : Int) :
    eventsOf (sqlInsertUpgrade now upgradeId u a b n db) u =
      eventsOf db u ++
        [{ upgrade_id := upgradeId, user_id := u, from_rank := a, to_rank := b,
           tasks_completed_at_upgrade := n, upgraded_at := now }] := by
  simp [eventsOf, sqlInsertUpgrade, List.filter_append]

/-- The first selected user row in terms of the observations. -/
theorem select_of_obs (db : Db) (u : String) (c : Int) (τ : Rank)
    (hc : countOf db u = some c) (ht : tierOf db u = some τ) :
    ∃ user rest, selectUsersById u db = user :: rest ∧ user.total_completed_tasks = c ∧
      user.current_rank = τ := by
  unfold countOf at hc
  unfold tierOf at ht
  cases h : selectUsersById u db with
  | nil => rw [h] at hc; simp at hc
  | cons user rest =>
      rw [h] at hc ht
      simp at hc ht
      exact ⟨user, rest, rfl, hc, ht⟩

/-! ## The rank service on the observations -/

theorem strictNe_bool_num (b : Bool) (n : Int) :
    (JsVal.bool b).strictNe (JsVal.num n) = true := rfl

/-- The database left by the rank service is the one it received, or that with the tier
written, or that with the tier written and the event appended. -/
theorem updateUserRank_cases (env : Env) (u : String) (db : Db) :
    (updateUserRank env u db).2 = db ∨
    (∃ r, (updateUserRank env u db).2 = sqlUpdateRank env.now r u db) ∨
    (∃ r a n, (updateUserRank env u db).2 =
      sqlInsertUpgrade env.now env.freshId u a r n (sqlUpdateRank env.now r u db)) := by
  unfold updateUserRank
  by_cases h1 : env.fails Stmt.selectUser = true
  · left; simp only [h1, if_true, if_false, Bool.false_eq_true, eq_self_iff_true]
  · simp only [h1, if_true, if_false, Bool.false_eq_true, eq_self_iff_true]
    cases selectUsersById u db with
    | nil => left; rfl
    | cons user rest =>
        simp only []
        cases checkRankUpgrade (user.total_completed_tasks - 1) user.total_completed_tasks with
        | none => left; rfl
        | some info =>
            simp only []
            by_cases h6 : info.upgraded = true
            · simp only [h6, if_true, if_false, Bool.false_eq_true, eq_self_iff_true]
              by_cases h2 : env.fails Stmt.updateRank = true
              · left; simp only [h2, if_true, if_false, Bool.false_eq_true, eq_self_iff_true]
              · simp only [h2, if_true, if_false, Bool.false_eq_true, eq_self_iff_true]
                by_cases h3 : env.fails Stmt.insertUpgrade = true
                · right; left; simp only [h3, if_true, if_false, Bool.false_eq_true, eq_self_iff_true]; exact ⟨_, rfl⟩
                · right; right; simp only [h3, if_true, if_false, Bool.false_eq_true, eq_self_iff_true]; exact ⟨_, _, _, rfl⟩
            · left; simp only [h6, if_true, if_false, Bool.false_eq_true, eq_self_iff_true]

theorem updateUserRank_users_count (env : Env) (u : String) (db : Db) :
    countOf (updateUserRank env u db).2 u = countOf db u := by
  rcases updateUserRank_cases env u db with h | ⟨r, h⟩ | ⟨r, a, n, h⟩
  · rw [h]
  · rw [h]; exact countOf_updateRank db u env.now r
  · rw [h]
    exact (countOf_congr _ _ u rfl).trans (countOf_updateRank db u env.now r)

theorem updateUserRank_todos (env : Env) (u : String) (db : Db) :
    (updateUserRank env u db).2.todos = db.todos := by
  rcases updateUserRank_cases env u db with h | ⟨r, h⟩ | ⟨r, a, n, h⟩ <;> rw [h] <;> rfl

/-- The rank service when every statement executes, in terms of the stored count and
tier of the user. -/
theorem updateUserRank_sound (now : Nat) (freshId u : String) (db : Db) (c : Int) (τ : Rank)
    (hc : countOf db u = some c) (ht : tierOf db u = some τ) :
    updateUserRank (Env.sound now freshId) u db =
      if calculateRank (c - 1) = calculateRank c then
        (RankUpdateResult.unchanged (calculateRank c), db)
      else
        (RankUpdateResult.upgraded τ (calculateRank c) (RANK_THRESHOLDS (calculateRank c)),
          sqlInsertUpgrade now freshId u τ (calculateRank c) c
            (sqlUpdateRank now (calculateRank c) u db)) := by
  obtain ⟨user, rest, hsel, h1, h2⟩ := select_of_obs db u c τ hc ht
  unfold updateUserRank
  simp only [Env.sound, hsel, h1, h2, checkRankUpgrade]
  by_cases h : calculateRank (c - 1) = calculateRank c
  · simp [h]
  · simp [h]

/-- The bookkeeping block never changes the task table. -/
theorem rankBookkeeping_todos (env : Env) (u : String) (completed : Option Bool) (w : JsVal)
    (db db2 : Db) (r : Option RankUpdateResult)
    (h : rankBookkeeping env u completed w db = some (r, db2)) : db2.todos = db.todos := by
  unfold rankBookkeeping at h
  cases completed with
  | none =>
      simp only [Option.some.injEq, Prod.mk.injEq] at h; rw [← h.2]
  | some b =>
      simp only [] at h
      by_cases hne : (JsVal.bool b).strictNe w = true
      · simp only [hne, if_true] at h
        by_cases ht : (JsVal.bool b).truthy = true
        · simp only [ht, if_true] at h
          by_cases hf : env.fails Stmt.incrementCount = true
          · simp [hf] at h
          · simp only [hf, if_false, Option.some.injEq, Prod.mk.injEq, Bool.false_eq_true] at h
            rw [← h.2, updateUserRank_todos]; rfl
        · simp only [ht, if_false, Bool.false_eq_true] at h
          by_cases hf : env.fails Stmt.decrementCount = true
          · simp [hf] at h
          · simp only [hf, if_false, Option.some.injEq, Prod.mk.injEq, Bool.false_eq_true] at h
            rw [← h.2]; rfl
      · simp only [hne, if_false, Option.some.injEq, Prod.mk.injEq, Bool.false_eq_true] at h
        rw [← h.2]

theorem rankBookkeeping_none (env : Env) (u : String) (w : JsVal) (db : Db) :
    rankBookkeeping env u none w db = some (none, db) := rfl

theorem rankBookkeeping_true (env : Env) (u : String) (n : Int) (db : Db) :
    rankBookkeeping env u (some true) (JsVal.num n) db =
      if env.fails Stmt.incrementCount then none
      else some (some (updateUserRank env u (sqlIncrementCount u db)).1,
        (updateUserRank env u (sqlIncrementCount u db)).2) := rfl

theorem rankBookkeeping_false (env : Env) (u : String) (n : Int) (db : Db) :
    rankBookkeeping env u (some false) (JsVal.num n) db =
      if env.fails Stmt.decrementCount then none
      else some (none, sqlDecrementCount u db) := rfl

/-- The count after the bookkeeping block, for the stored flag `n` of the task. -/
theorem rankBookkeeping_count (env : Env) (u : String) (b : Bool) (n : Int)
    (db db2 : Db) (r : Option RankUpdateResult)
    (h : rankBookkeeping env u (some b) (JsVal.num n) db = some (r, db2)) :
    countOf db2 u =
      if b then (countOf db u).map (fun c => c + 1)
      else (countOf db u).map (fun c => max 0 (c - 1)) := by
  cases b with
  | true =>
      rw [rankBookkeeping_true] at h
      by_cases hf : env.fails Stmt.incrementCount = true
      · simp [hf] at h
      · simp only [hf, if_false, Option.some.injEq, Prod.mk.injEq, Bool.false_eq_true] at h
        rw [← h.2, updateUserRank_users_count, countOf_increment]
        rfl
  | false =>
      rw [rankBookkeeping_false] at h
      by_cases hf : env.fails Stmt.decrementCount = true
      · simp [hf] at h
      · simp only [hf, if_false, Option.some.injEq, Prod.mk.injEq, Bool.false_eq_true] at h
        rw [← h.2, countOf_decrement]
        rfl

/-- What a successful `updateTodo` has done. -/
theorem updateTodo_of_success (env : Env) (u todoId : String) (body : UpdateBody) (db : Db)
    (hs : (updateTodo env u todoId body db).1.isSuccess = true) :
    ∃ existing rest r,
      selectTodosById todoId db = existing :: rest ∧ existing.user_id = u ∧
      rankBookkeeping env u body.completed (JsVal.num existing.completed)
        (sqlUpdateTodos env.now (buildUpdateFields body (JsVal.num existing.completed))
          todoId db) = some (r, (updateTodo env u todoId body db).2) ∧
      (updateTodo env u todoId body db).1 =
        Response.success 200 (selectTodosById todoId (updateTodo env u todoId body db).2).head?
          (rankUpgradeOf r) := by
  unfold updateTodo at hs ⊢
  simp only [] at hs ⊢
  by_cases h1 : env.fails Stmt.getConnection = true
  · simp [h1, Response.isSuccess] at hs
  simp only [h1, if_true, if_false, Bool.false_eq_true, eq_self_iff_true] at hs ⊢
  by_cases h2 : env.fails Stmt.beginTransaction = true
  · simp [h2, Response.isSuccess] at hs
  simp only [h2, if_true, if_false, Bool.false_eq_true, eq_self_iff_true] at hs ⊢
  by_cases h3 : env.fails Stmt.selectTodo = true
  · simp [h3, Response.isSuccess] at hs
  simp only [h3, if_true, if_false, Bool.false_eq_true, eq_self_iff_true] at hs ⊢
  cases hsel : selectTodosById todoId db with
  | nil => rw [hsel] at hs; simp [Response.isSuccess] at hs
  | cons existing rest =>
      rw [hsel] at hs
      simp only [] at hs ⊢
      by_cases h4 : (existing.user_id != u) = true
      · simp [h4, Response.isSuccess] at hs
      simp only [h4, if_true, if_false, Bool.false_eq_true, eq_self_iff_true] at hs ⊢
      have hown : existing.user_id = u := by simpa using h4
      by_cases h5 : (buildUpdateFields body (JsVal.num existing.completed)).length = 0
      · simp [h5, Response.isSuccess] at hs
      simp only [h5, if_true, if_false, Bool.false_eq_true, eq_self_iff_true] at hs ⊢
      by_cases h6 : env.fails Stmt.updateTodos = true
      · simp [h6, Response.isSuccess] at hs
      simp only [h6, if_true, if_false, Bool.false_eq_true, eq_self_iff_true] at hs ⊢
      cases hb : rankBookkeeping env u body.completed (JsVal.num existing.completed)
          (sqlUpdateTodos env.now (buildUpdateFields body (JsVal.num existing.completed))
            todoId db) with
      | none => rw [hb] at hs; simp [Response.isSuccess] at hs
      | some p =>
          obtain ⟨r, db2⟩ := p
          rw [hb] at hs
          simp only [] at hs ⊢
          by_cases h7 : env.fails Stmt.selectUpdatedTodo = true
          · simp [h7, Response.isSuccess] at hs
          simp only [h7, if_true, if_false, Bool.false_eq_true, eq_self_iff_true] at hs ⊢
          by_cases h8 : env.fails Stmt.commit = true
          · simp [h8, Response.isSuccess] at hs
          simp only [h8, if_true, if_false, Bool.false_eq_true, eq_self_iff_true] at hs ⊢
          exact ⟨existing, rest, r, rfl, hown, hb, rfl⟩

/-! ## The handlers on a task that exists and belongs to the caller -/

theorem select_of_todoOf (db : Db) (todoId : String) (t : TodoRow)
    (h : todoOf db todoId = some t) : ∃ rest, selectTodosById todoId db = t :: rest := by
  unfold todoOf at h
  cases hs : selectTodosById todoId db with
  | nil => rw [hs] at h; simp at h
  | cons a rest =>
      rw [hs] at h
      simp only [List.head?_cons, Option.some.injEq] at h
      exact ⟨rest, by rw [h]⟩

theorem buildUpdateFields_completed_length (task : Option String) (b : Bool) (w : JsVal) :
    ¬ (buildUpdateFields { task := task, completed := some b } w).length = 0 := by
  unfold buildUpdateFields
  cases task <;> simp

/-- The handler `updateTodo` with `completed: true` when every statement executes. -/
theorem updateTodo_sound_true (now : Nat) (freshId u todoId : String) (task : Option String)
    (db : Db) (t : TodoRow) (hsel : todoOf db todoId = some t) (hown : t.user_id = u) :
    updateTodo (Env.sound now freshId) u todoId { task := task, completed := some true } db =
      (Response.success 200
        (selectTodosById todoId (updateUserRank (Env.sound now freshId) u
          (sqlIncrementCount u (sqlUpdateTodos now
            (buildUpdateFields { task := task, completed := some true } (JsVal.num t.completed))
            todoId db))).2).head?
        (rankUpgradeOf (some (updateUserRank (Env.sound now freshId) u
          (sqlIncrementCount u (sqlUpdateTodos now
            (buildUpdateFields { task := task, completed := some true } (JsVal.num t.completed))
            todoId db))).1)),
       (updateUserRank (Env.sound now freshId) u
          (sqlIncrementCount u (sqlUpdateTodos now
            (buildUpdateFields { task := task, completed := some true } (JsVal.num t.completed))
            todoId db))).2) := by
  obtain ⟨rest, hs⟩ := select_of_todoOf db todoId t hsel
  have hne : (t.user_id != u) = false := by simp [hown]
  have hlen := buildUpdateFields_completed_length task true (JsVal.num t.completed)
  unfold updateTodo
  simp only [Env.sound, hs, hne, hlen, rankBookkeeping_true, if_false, Bool.false_eq_true]

/-- The handler `updateTodo` with `completed: false` on a task of the caller, when it
succeeds. -/
theorem updateTodo_false_of_success (env : Env) (u todoId : String) (task : Option String)
    (db : Db) (t : TodoRow) (hsel : todoOf db todoId = some t)
    (hs : (updateTodo env u todoId { task := task, completed := some false } db).1.isSuccess
      = true) :
    (updateTodo env u todoId { task := task, completed := some false } db).2 =
      sqlDecrementCount u (sqlUpdateTodos env.now
        (buildUpdateFields { task := task, completed := some false } (JsVal.num t.completed))
        todoId db) := by
  obtain ⟨existing, rest, r, h1, _, h3, _⟩ := updateTodo_of_success env u todoId _ db hs
  obtain ⟨rest2, h5⟩ := select_of_todoOf db todoId t hsel
  rw [h5] at h1
  simp only [List.cons.injEq] at h1
  rw [← h1.1] at h3
  simp only [] at h3
  rw [rankBookkeeping_false] at h3
  by_cases hf : env.fails Stmt.decrementCount = true
  · simp [hf] at h3
  · simp only [hf, if_false, Option.some.injEq, Prod.mk.injEq, Bool.false_eq_true] at h3
    exact h3.2.symm

/-- The handler `updateTodo` with `completed: true` on a task of the caller, when it
succeeds: the database is the one the rank service left. -/
theorem updateTodo_true_of_success (env : Env) (u todoId : String) (task : Option String)
    (db : Db) (t : TodoRow) (hsel : todoOf db todoId = some t)
    (hs : (updateTodo env u todoId { task := task, completed := some true } db).1.isSuccess
      = true) :
    (updateTodo env u todoId { task := task, completed := some true } db).2 =
      (updateUserRank env u (sqlIncrementCount u (sqlUpdateTodos env.now
        (buildUpdateFields { task := task, completed := some true } (JsVal.num t.completed))
        todoId db))).2 := by
  obtain ⟨existing, rest, r, h1, _, h3, _⟩ := updateTodo_of_success env u todoId _ db hs
  obtain ⟨rest2, h5⟩ := select_of_todoOf db todoId t hsel
  rw [h5] at h1
  simp only [List.cons.injEq] at h1
  rw [← h1.1] at h3
  simp only [] at h3
  rw [rankBookkeeping_true] at h3
  by_cases hf : env.fails Stmt.incrementCount = true
  · simp [hf] at h3
  · simp only [hf, if_false, Option.some.injEq, Prod.mk.injEq, Bool.false_eq_true] at h3
    exact h3.2.symm

/-- The handler `updateTodo` without `completed`: the user table and the event log stay as
they are, whatever the response. -/
theorem updateTodo_no_completed (env : Env) (u todoId : String) (task : Option String)
    (db : Db) :
    (updateTodo env u todoId { task := task, completed := none } db).2.users = db.users ∧
    (updateTodo env u todoId { task := task, completed := none } db).2.rank_upgrades =
      db.rank_upgrades := by
  unfold updateTodo
  simp only [rankBookkeeping_none]
  by_cases h1 : env.fails Stmt.getConnection = true
  · simp [h1]
  simp only [h1, if_false, Bool.false_eq_true]
  by_cases h2 : env.fails Stmt.beginTransaction = true
  · simp [h2]
  simp only [h2, if_false, Bool.false_eq_true]
  by_cases h3 : env.fails Stmt.selectTodo = true
  · simp [h3]
  simp only [h3, if_false, Bool.false_eq_true]
  cases selectTodosById todoId db with
  | nil => simp
  | cons existing rest =>
      simp only []
      by_cases h4 : (existing.user_id != u) = true
      · simp [h4]
      simp only [h4, if_false, Bool.false_eq_true]
      by_cases h5 : (buildUpdateFields { task := task, completed := none }
          (JsVal.num existing.completed)).length = 0
      · simp [h5]
      simp only [h5, if_false]
      by_cases h6 : env.fails Stmt.updateTodos = true
      · simp [h6]
      simp only [h6, if_false, Bool.false_eq_true]
      by_cases h7 : env.fails Stmt.selectUpdatedTodo = true
      · simp [h7]
      simp only [h7, if_false, Bool.false_eq_true]
      by_cases h8 : env.fails Stmt.commit = true
      · simp [h8]
      simp only [h8, if_false, Bool.false_eq_true]
      exact ⟨rfl, rfl⟩

/-- The handler `createTodo` touches neither the user table nor the event log. -/
theorem createTodo_frame (env : Env) (v : String) (task : Option String) (db : Db) :
    (createTodo env v task db).2.users = db.users ∧
    (createTodo env v task db).2.rank_upgrades = db.rank_upgrades := by
  unfold createTodo
  cases task with
  | none => exact ⟨rfl, rfl⟩
  | some s =>
      simp only []
      by_cases h0 : (s = "" || jsTrim s = "") = true
      · simp [h0]
      simp only [h0, if_false, Bool.false_eq_true]
      by_cases h1 : env.fails Stmt.getConnection = true
      · simp [h1]
      simp only [h1, if_false, Bool.false_eq_true]
      by_cases h2 : env.fails Stmt.insertTodo = true
      · simp [h2]
      simp only [h2, if_false, Bool.false_eq_true]
      by_cases h3 : env.fails Stmt.selectNewTodo = true
      · simp only [h3, if_true]; exact ⟨rfl, rfl⟩
      simp only [h3, if_false, Bool.false_eq_true]
      exact ⟨rfl, rfl⟩

/-- What a successful `deleteTodo` on a task of the caller has done. -/
theorem deleteTodo_of_success (env : Env) (u todoId : String) (db : Db) (t : TodoRow)
    (hsel : todoOf db todoId = some t)
    (hs : (deleteTodo env u todoId db).1.isSuccess = true) :
    (deleteTodo env u todoId db).2 =
      if t.completed ≠ 0 then sqlDecrementCount u (sqlDeleteTodo todoId db)
      else sqlDeleteTodo todoId db := by
  obtain ⟨rest, h5⟩ := select_of_todoOf db todoId t hsel
  unfold deleteTodo at hs ⊢
  simp only [h5] at hs ⊢
  by_cases h1 : env.fails Stmt.getConnection = true
  · simp [h1, Response.isSuccess] at hs
  simp only [h1, if_false, Bool.false_eq_true] at hs ⊢
  by_cases h2 : env.fails Stmt.beginTransaction = true
  · simp [h2, Response.isSuccess] at hs
  simp only [h2, if_false, Bool.false_eq_true] at hs ⊢
  by_cases h3 : env.fails Stmt.selectTodo = true
  · simp [h3, Response.isSuccess] at hs
  simp only [h3, if_false, Bool.false_eq_true] at hs ⊢
  by_cases h4 : (t.user_id != u) = true
  · simp [h4, Response.isSuccess] at hs
  simp only [h4, if_false, Bool.false_eq_true] at hs ⊢
  by_cases h6 : env.fails Stmt.deleteTodos = true
  · simp [h6, Response.isSuccess] at hs
  simp only [h6, if_false, Bool.false_eq_true] at hs ⊢
  by_cases hw : t.completed = 0
  · simp only [JsVal.truthy, hw, ne_eq, not_true_eq_false, decide_False, if_false,
      Bool.false_eq_true] at hs ⊢
    by_cases h8 : env.fails Stmt.commit = true
    · simp [h8, Response.isSuccess] at hs
    simp only [h8, if_false, Bool.false_eq_true]
  · simp only [JsVal.truthy, hw, ne_eq, not_false_eq_true, decide_True, if_true] at hs ⊢
    by_cases h7 : env.fails Stmt.decrementCount = true
    · simp [h7, Response.isSuccess] at hs
    simp only [h7, if_false, Bool.false_eq_true] at hs ⊢
    by_cases h8 : env.fails Stmt.commit = true
    · simp [h8, Response.isSuccess] at hs
    simp only [h8, if_false, Bool.false_eq_true]

/-- The handler `deleteTodo` succeeds on a task of the caller when every statement
executes. -/
theorem deleteTodo_sound_success (now : Nat) (freshId u todoId : String) (db : Db)
    (t : TodoRow) (hsel : todoOf db todoId = some t) (hown : t.user_id = u) :
    (deleteTodo (Env.sound now freshId) u todoId db).1 = Response.success 200 none none := by
  obtain ⟨rest, h5⟩ := select_of_todoOf db todoId t hsel
  have hne : (t.user_id != u) = false := by simp [hown]
  unfold deleteTodo
  simp only [Env.sound, h5, hne, if_false, Bool.false_eq_true]
  by_cases hw : (JsVal.num t.completed).truthy = true
  · simp only [hw, if_true]
  · simp only [hw, if_false, Bool.false_eq_true]

/-! ## Completing a task when every statement executes -/

theorem foldl_applyAssignment_ids (now : Nat) (fields : List Assignment) (row : TodoRow) :
    (fields.foldl (applyAssignment now) row).todo_id = row.todo_id ∧
    (fields.foldl (applyAssignment now) row).user_id = row.user_id := by
  induction fields generalizing row with
  | nil => exact ⟨rfl, rfl⟩
  | cons a rest ih =>
      simp only [List.foldl_cons]
      obtain ⟨h1, h2⟩ := ih (applyAssignment now row a)
      rw [h1, h2]
      cases a <;> exact ⟨rfl, rfl⟩

/-- The statement `UPDATE todos` keeps the owner of every task. -/
theorem owner_sqlUpdateTodos (now : Nat) (fields : List Assignment) (todoId other : String)
    (db : Db) :
    (todoOf (sqlUpdateTodos now fields todoId db) other).map (fun t => t.user_id) =
      (todoOf db other).map (fun t => t.user_id) := by
  unfold todoOf selectTodosById sqlUpdateTodos
  simp only []
  rw [head?_filter_map_key (fun t : TodoRow => t.todo_id == other) _
    (fun row => if row.todo_id == todoId then
        { List.foldl (applyAssignment now) row fields with updated_at := now }
      else row)]
  · cases (List.filter (fun t : TodoRow => t.todo_id == other) db.todos).head? with
    | none => rfl
    | some row =>
        simp only [Option.map_some', Option.some.injEq]
        by_cases h : (row.todo_id == todoId) = true
        · simp only [h, if_true]
          exact (foldl_applyAssignment_ids now fields row).2
        · simp only [h, if_false, Bool.false_eq_true]
  · intro a
    by_cases h : (a.todo_id == todoId) = true
    · simp only [h, if_true]
      rw [(foldl_applyAssignment_ids now fields a).1]
    · simp only [h, if_false, Bool.false_eq_true]
  · intro a _; rfl

theorem countOf_sqlUpdateTodos (now : Nat) (fields : List Assignment) (todoId u : String)
    (db : Db) : countOf (sqlUpdateTodos now fields todoId db) u = countOf db u := rfl

theorem tierOf_sqlUpdateTodos (now : Nat) (fields : List Assignment) (todoId u : String)
    (db : Db) : tierOf (sqlUpdateTodos now fields todoId db) u = tierOf db u := rfl

theorem eventsOf_sqlUpdateTodos (now : Nat) (fields : List Assignment) (todoId u : String)
    (db : Db) : eventsOf (sqlUpdateTodos now fields todoId db) u = eventsOf db u := rfl

theorem eventsOf_increment (v u : String) (db : Db) :
    eventsOf (sqlIncrementCount v db) u = eventsOf db u := rfl

theorem eventsOf_decrement (v u : String) (db : Db) :
    eventsOf (sqlDecrementCount v db) u = eventsOf db u := rfl

theorem eventsOf_updateRank (now : Nat) (r : Rank) (v u : String) (db : Db) :
    eventsOf (sqlUpdateRank now r v db) u = eventsOf db u := rfl

theorem countOf_insertUpgrade (now : Nat) (upgradeId v u : String) (a b : Rank) (n : Int)
    (db : Db) : countOf (sqlInsertUpgrade now upgradeId v a b n db) u = countOf db u := rfl

theorem tierOf_insertUpgrade (now : Nat) (upgradeId v u : String) (a b : Rank) (n : Int)
    (db : Db) : tierOf (sqlInsertUpgrade now upgradeId v a b n db) u = tierOf db u := rfl

theorem countOf_deleteTodo (todoId u : String) (db : Db) :
    countOf (sqlDeleteTodo todoId db) u = countOf db u := rfl

theorem tierOf_deleteTodo (todoId u : String) (db : Db) :
    tierOf (sqlDeleteTodo todoId db) u = tierOf db u := rfl

theorem eventsOf_deleteTodo (todoId u : String) (db : Db) :
    eventsOf (sqlDeleteTodo todoId db) u = eventsOf db u := rfl

theorem todoOf_congr (db db2 : Db) (todoId : String) (h : db2.todos = db.todos) :
    todoOf db2 todoId = todoOf db todoId := by
  unfold todoOf selectTodosById; rw [h]

/-- A completion request on a task of the caller, when every statement executes: the
response, the count, the tier, the event log and the owners of the tasks afterwards, for a
user whose stored count is `c` and stored tier is `τ`. -/
theorem complete_sound (now : Nat) (freshId u todoId : String) (task : Option String)
    (db : Db) (t : TodoRow) (c : Int) (τ : Rank)
    (hsel : todoOf db todoId = some t) (hown : t.user_id = u)
    (hc : countOf db u = some c) (ht : tierOf db u = some τ) :
    (updateTodo (Env.sound now freshId) u todoId { task := task, completed := some true }
      db).1.isSuccess = true ∧
    countOf (updateTodo (Env.sound now freshId) u todoId
      { task := task, completed := some true } db).2 u = some (c + 1) ∧
    (∀ other, (todoOf (updateTodo (Env.sound now freshId) u todoId
      { task := task, completed := some true } db).2 other).map (fun t => t.user_id) =
        (todoOf db other).map (fun t => t.user_id)) ∧
    (calculateRank c = calculateRank (c + 1) →
      tierOf (updateTodo (Env.sound now freshId) u todoId
        { task := task, completed := some true } db).2 u = some τ ∧
      eventsOf (updateTodo (Env.sound now freshId) u todoId
        { task := task, completed := some true } db).2 u = eventsOf db u ∧
      (updateTodo (Env.sound now freshId) u todoId
        { task := task, completed := some true } db).1.rankUpgrade? = none) ∧
    (calculateRank c ≠ calculateRank (c + 1) →
      tierOf (updateTodo (Env.sound now freshId) u todoId
        { task := task, completed := some true } db).2 u = some (calculateRank (c + 1)) ∧
      eventsOf (updateTodo (Env.sound now freshId) u todoId
        { task := task, completed := some true } db).2 u =
          eventsOf db u ++
            [{ upgrade_id := freshId, user_id := u, from_rank := τ,
               to_rank := calculateRank (c + 1), tasks_completed_at_upgrade := c + 1,
               upgraded_at := now }] ∧
      (updateTodo (Env.sound now freshId) u todoId
        { task := task, completed := some true } db).1.rankUpgrade? =
          some { upgraded := true, fromRank := τ, toRank := calculateRank (c + 1),
                 rankInfo := RANK_THRESHOLDS (calculateRank (c + 1)) }) := by
  rw [updateTodo_sound_true now freshId u todoId task db t hsel hown]
  generalize hf : buildUpdateFields { task := task, completed := some true }
    (JsVal.num t.completed) = fields
  have hc1 : countOf (sqlIncrementCount u (sqlUpdateTodos now fields todoId db)) u
      = some (c + 1) := by
    rw [countOf_increment, countOf_sqlUpdateTodos, hc]; rfl
  have ht1 : tierOf (sqlIncrementCount u (sqlUpdateTodos now fields todoId db)) u
      = some τ := by
    rw [tierOf_increment, tierOf_sqlUpdateTodos, ht]
  have hrank := updateUserRank_sound now freshId u _ (c + 1) τ hc1 ht1
  have hsub : c + 1 - 1 = c := by omega
  rw [hsub] at hrank
  have howner : ∀ other, (todoOf (updateUserRank (Env.sound now freshId) u
      (sqlIncrementCount u (sqlUpdateTodos now fields todoId db))).2 other).map
        (fun t => t.user_id) = (todoOf db other).map (fun t => t.user_id) := by
    intro other
    rw [todoOf_congr (sqlUpdateTodos now fields todoId db) _ other
      (by rw [updateUserRank_todos]; rfl)]
    exact owner_sqlUpdateTodos now fields todoId other db
  refine ⟨rfl, ?_, howner, ?_, ?_⟩
  · rw [updateUserRank_users_count]; exact hc1
  · intro heq
    rw [hrank]
    simp only [heq, if_true]
    refine ⟨ht1, ?_, rfl⟩
    rfl
  · intro hneq
    rw [hrank]
    simp only [hneq, if_false]
    refine ⟨?_, ?_, rfl⟩
    · rw [tierOf_insertUpgrade, tierOf_updateRank, ht1]
      rfl
    · rw [eventsOf_insertUpgrade]
      rfl

/-! ## Claims on the transactional handlers -/

/-- C3 (evaluation at the failing input): a user with count 9 and tier iron completes a
task.  When the `INSERT INTO rank_upgrades` issued inside `updateUserRank` fails, the error
is caught inside `updateUserRank`, so `updateTodo` commits and answers 200: the task is
completed, the count is 10, the stored tier is silver and no event is recorded.  When the
tier `UPDATE` inside `updateUserRank` fails, `updateTodo` likewise commits and answers 200
with the count at 10, the tier still iron and no event.  When the counter `UPDATE` issued by
`updateTodo` itself fails, the request answers 500 and the database is as before. -/
theorem updateTodo_commits_after_insert_failure :
    updateTodo (Env.failing 7 "upgrade_7_k" Stmt.insertUpgrade) "u1" "t1"
        { task := none, completed := some true } (sampleDb 9 Rank.iron 0 none) =
      (Response.success 200
          (some { todo_id := "t1", user_id := "u1", task := "write report", completed := 1,
                  completed_at := some 7, created_at := 1, updated_at := 7 }) none,
        { todos := [{ todo_id := "t1", user_id := "u1", task := "write report",
                      completed := 1, completed_at := some 7, created_at := 1,
                      updated_at := 7 }],
          users := [{ user_id := "u1", username := "ann", current_rank := Rank.silver,
                      total_completed_tasks := 10, rank_upgraded_at := some 7 }],
          rank_upgrades := [] }) ∧
    updateTodo (Env.failing 7 "upgrade_7_k" Stmt.updateRank) "u1" "t1"
        { task := none, completed := some true } (sampleDb 9 Rank.iron 0 none) =
      (Response.success 200
          (some { todo_id := "t1", user_id := "u1", task := "write report", completed := 1,
                  completed_at := some 7, created_at := 1, updated_at := 7 }) none,
        { todos := [{ todo_id := "t1", user_id := "u1", task := "write report",
                      completed := 1, completed_at := some 7, created_at := 1,
                      updated_at := 7 }],
          users := [{ user_id := "u1", username := "ann", current_rank := Rank.iron,
                      total_completed_tasks := 10, rank_upgraded_at := none }],
          rank_upgrades := [] }) ∧
    updateTodo (Env.failing 7 "upgrade_7_k" Stmt.incrementCount) "u1" "t1"
        { task := none, completed := some true } (sampleDb 9 Rank.iron 0 none) =
      (Response.failure 500 "Failed to update todo", sampleDb 9 Rank.iron 0 none) := by
  decide

/-- C4 (counterexample): a user with count 10 and tier silver, in sync, un-completes a
task; the request succeeds, the count is 9 and the stored tier is still silver, which is
not `calculateRank 9`. -/
theorem stored_tier_stale_after_uncomplete :
    tierOf (sampleDb 10 Rank.silver 1 (some 3)) "u1" =
      (countOf (sampleDb 10 Rank.silver 1 (some 3)) "u1").map calculateRank ∧
    (updateTodo (Env.sound 7 "k") "u1" "t1" { task := none, completed := some false }
      (sampleDb 10 Rank.silver 1 (some 3))).1.isSuccess = true ∧
    tierOf (updateTodo (Env.sound 7 "k") "u1" "t1" { task := none, completed := some false }
      (sampleDb 10 Rank.silver 1 (some 3))).2 "u1" ≠
      (countOf (updateTodo (Env.sound 7 "k") "u1" "t1"
        { task := none, completed := some false }
        (sampleDb 10 Rank.silver 1 (some 3))).2 "u1").map calculateRank := by
  decide

/-- C4 (amended): from a state in which the stored tier of user `u` is
`calculateRank` of the stored count `c`: `createTodo` and an `updateTodo` without
`completed` leave count and tier as they are; an `updateTodo` that flips a task of `u` from
not-completed to completed, every statement executing, succeeds and leaves count `c + 1`
and tier `calculateRank (c + 1)`; a successful `updateTodo` that flips a completed task to
not-completed leaves count `max 0 (c - 1)` and the tier `calculateRank c` as stored; a
successful `deleteTodo` leaves the tier `calculateRank c` as stored and the count
`max 0 (c - 1)` for a completed task, `c` otherwise. -/
theorem stored_tier_after_operation (db : Db) (u : String) (c : Int)
    (hc : countOf db u = some c) (ht : tierOf db u = some (calculateRank c)) :
    (∀ (env : Env) (v : String) (task : Option String),
      countOf (createTodo env v task db).2 u = some c ∧
      tierOf (createTodo env v task db).2 u = some (calculateRank c)) ∧
    (∀ (env : Env) (todoId : String) (task : Option String),
      countOf (updateTodo env u todoId { task := task, completed := none } db).2 u = some c ∧
      tierOf (updateTodo env u todoId { task := task, completed := none } db).2 u =
        some (calculateRank c)) ∧
    (∀ (now : Nat) (freshId todoId : String) (task : Option String) (t : TodoRow),
      todoOf db todoId = some t → t.user_id = u → t.completed = 0 →
      (updateTodo (Env.sound now freshId) u todoId { task := task, completed := some true }
        db).1.isSuccess = true ∧
      countOf (updateTodo (Env.sound now freshId) u todoId
        { task := task, completed := some true } db).2 u = some (c + 1) ∧
      tierOf (updateTodo (Env.sound now freshId) u todoId
        { task := task, completed := some true } db).2 u = some (calculateRank (c + 1))) ∧
    (∀ (env : Env) (todoId : String) (task : Option String) (t : TodoRow),
      todoOf db todoId = some t → t.user_id = u → t.completed ≠ 0 →
      (updateTodo env u todoId { task := task, completed := some false } db).1.isSuccess
        = true →
      countOf (updateTodo env u todoId { task := task, completed := some false } db).2 u =
        some (max 0 (c - 1)) ∧
      tierOf (updateTodo env u todoId { task := task, completed := some false } db).2 u =
        some (calculateRank c)) ∧
    (∀ (env : Env) (todoId : String) (t : TodoRow),
      todoOf db todoId = some t → t.user_id = u →
      (deleteTodo env u todoId db).1.isSuccess = true →
      countOf (deleteTodo env u todoId db).2 u =
        some (if t.completed ≠ 0 then max 0 (c - 1) else c) ∧
      tierOf (deleteTodo env u todoId db).2 u = some (calculateRank c)) := by
  refine ⟨?_, ?_, ?_, ?_, ?_⟩
  · intro env v task
    obtain ⟨h1, _⟩ := createTodo_frame env v task db
    rw [countOf_congr db _ u h1, tierOf_congr db _ u h1]
    exact ⟨hc, ht⟩
  · intro env todoId task
    obtain ⟨h1, _⟩ := updateTodo_no_completed env u todoId task db
    rw [countOf_congr db _ u h1, tierOf_congr db _ u h1]
    exact ⟨hc, ht⟩
  · intro now freshId todoId task t hsel hown _
    obtain ⟨k1, k2, _, k4, k5⟩ :=
      complete_sound now freshId u todoId task db t c (calculateRank c) hsel hown hc ht
    refine ⟨k1, k2, ?_⟩
    by_cases h : calculateRank c = calculateRank (c + 1)
    · rw [(k4 h).1, h]
    · exact (k5 h).1
  · intro env todoId task t hsel _ _ hs
    rw [updateTodo_false_of_success env u todoId task db t hsel hs, countOf_decrement,
      tierOf_decrement, countOf_sqlUpdateTodos, tierOf_sqlUpdateTodos, hc, ht]
    exact ⟨rfl, rfl⟩
  · intro env todoId t hsel _ hs
    rw [deleteTodo_of_success env u todoId db t hsel hs]
    by_cases hw : t.completed = 0
    · simp only [hw, ne_eq, not_true_eq_false, if_false]
      rw [countOf_deleteTodo, tierOf_deleteTodo]
      exact ⟨hc, ht⟩
    · simp only [hw, ne_eq, not_false_eq_true, if_true]
      rw [countOf_decrement, tierOf_decrement, countOf_deleteTodo, tierOf_deleteTodo, hc, ht]
      exact ⟨rfl, rfl⟩

/-- Witness of C4 (amended): a user with count 9 and tier iron completes a task. -/
theorem stored_tier_after_operation_witness :
    countOf (sampleDb 9 Rank.iron 0 none) "u1" = some 9 ∧
    tierOf (sampleDb 9 Rank.iron 0 none) "u1" = some (calculateRank 9) ∧
    ((updateTodo (Env.sound 7 "k") "u1" "t1" { task := none, completed := some true }
        (sampleDb 9 Rank.iron 0 none)).1.isSuccess = true ∧
      countOf (updateTodo (Env.sound 7 "k") "u1" "t1" { task := none, completed := some true }
        (sampleDb 9 Rank.iron 0 none)).2 "u1" = some (9 + 1) ∧
      tierOf (updateTodo (Env.sound 7 "k") "u1" "t1" { task := none, completed := some true }
        (sampleDb 9 Rank.iron 0 none)).2 "u1" = some (calculateRank (9 + 1))) :=
  ⟨by decide, by decide,
    (stored_tier_after_operation (sampleDb 9 Rank.iron 0 none) "u1" 9 (by decide)
      (by decide)).2.2.1 7 "k" "t1" none
      { todo_id := "t1", user_id := "u1", task := "write report", completed := 0,
        completed_at := none, created_at := 1, updated_at := 1 }
      (by decide) (by decide) (by decide)⟩

/-- C5 (counterexample): a user with count 0 who owns a completed task un-completes and
re-completes it; both requests succeed and the count ends at 1, not at 0. -/
theorem toggle_roundtrip_at_zero :
    countOf (sampleDb 0 Rank.iron 1 (some 3)) "u1" = some 0 ∧
    (updateTodo (Env.sound 7 "k") "u1" "t1" { task := none, completed := some false }
      (sampleDb 0 Rank.iron 1 (some 3))).1.isSuccess = true ∧
    (updateTodo (Env.sound 8 "m") "u1" "t1" { task := none, completed := some true }
      (updateTodo (Env.sound 7 "k") "u1" "t1" { task := none, completed := some false }
        (sampleDb 0 Rank.iron 1 (some 3))).2).1.isSuccess = true ∧
    countOf (updateTodo (Env.sound 8 "m") "u1" "t1" { task := none, completed := some true }
      (updateTodo (Env.sound 7 "k") "u1" "t1" { task := none, completed := some false }
        (sampleDb 0 Rank.iron 1 (some 3))).2).2 "u1" = some 1 := by
  decide

/-- C5 (amended): for a user with lifetime count `c` who owns a completed task, a successful
`updateTodo` with `completed = false` followed by a successful `updateTodo` with
`completed = true` on that task leaves the count `max 0 (c - 1) + 1`: equal to `c` for
every `c ≥ 1`, and `1` for `c = 0`. -/
theorem toggle_roundtrip_count (env1 env2 : Env) (u todoId : String)
    (task1 task2 : Option String) (db : Db) (t : TodoRow) (c : Int)
    (hc : countOf db u = some c) (hsel : todoOf db todoId = some t) (hown : t.user_id = u)
    (hdone : t.completed ≠ 0)
    (hs1 : (updateTodo env1 u todoId { task := task1, completed := some false }
      db).1.isSuccess = true)
    (hs2 : (updateTodo env2 u todoId { task := task2, completed := some true }
      (updateTodo env1 u todoId { task := task1, completed := some false } db).2).1.isSuccess
        = true) :
    countOf (updateTodo env1 u todoId { task := task1, completed := some false } db).2 u =
      some (max 0 (c - 1)) ∧
    countOf (updateTodo env2 u todoId { task := task2, completed := some true }
      (updateTodo env1 u todoId { task := task1, completed := some false } db).2).2 u =
        some (max 0 (c - 1) + 1) ∧
    (1 ≤ c →
      countOf (updateTodo env2 u todoId { task := task2, completed := some true }
        (updateTodo env1 u todoId { task := task1, completed := some false } db).2).2 u =
          some c) ∧
    (c = 0 →
      countOf (updateTodo env2 u todoId { task := task2, completed := some true }
        (updateTodo env1 u todoId { task := task1, completed := some false } db).2).2 u =
          some 1) := by
  have _ := hown
  have _ := hdone
  have h1 : countOf (updateTodo env1 u todoId { task := task1, completed := some false }
      db).2 u = some (max 0 (c - 1)) := by
    rw [updateTodo_false_of_success env1 u todoId task1 db t hsel hs1, countOf_decrement,
      countOf_sqlUpdateTodos, hc]
    rfl
  obtain ⟨existing, rest, r, _, _, k3, _⟩ := updateTodo_of_success env2 u todoId _ _ hs2
  have h2 := rankBookkeeping_count env2 u true existing.completed _ _ r k3
  rw [countOf_sqlUpdateTodos, h1] at h2
  simp only [if_true, Option.map_some'] at h2
  refine ⟨h1, h2, ?_, ?_⟩
  · intro hpos
    rw [h2, max_eq_right (by omega)]
    congr 1
    omega
  · intro hzero
    rw [h2, hzero]
    rfl

/-- Witness of C5 (amended): count 5, one completed task. -/
theorem toggle_roundtrip_count_witness :
    countOf (updateTodo (Env.sound 8 "m") "u1" "t1" { task := none, completed := some true }
      (updateTodo (Env.sound 7 "k") "u1" "t1" { task := none, completed := some false }
        (sampleDb 5 Rank.iron 1 (some 3))).2).2 "u1" = some 5 :=
  (toggle_roundtrip_count (Env.sound 7 "k") (Env.sound 8 "m") "u1" "t1" none none
    (sampleDb 5 Rank.iron 1 (some 3))
    { todo_id := "t1", user_id := "u1", task := "write report", completed := 1,
      completed_at := some 3, created_at := 1, updated_at := 1 } 5
    (by decide) (by decide) (by decide) (by decide) (by decide) (by decide)).2.2.1 (by decide)

/-- C8 (counterexample): the stored tier is silver while the count is 9 (the count went
down from 10 earlier).  Completing a task gives count 10, a tier crossing of
`calculateRank`; the transition returned and the event appended have source tier silver,
the stored tier, not `calculateRank 9 = iron`. -/
theorem upgrade_source_is_stored_tier :
    calculateRank (10 - 1) ≠ calculateRank 10 ∧
    updateTodo (Env.sound 7 "k") "u1" "t1" { task := none, completed := some true }
        (sampleDb 9 Rank.silver 0 none) =
      (Response.success 200
          (some { todo_id := "t1", user_id := "u1", task := "write report", completed := 1,
                  completed_at := some 7, created_at := 1, updated_at := 7 })
          (some { upgraded := true, fromRank := Rank.silver, toRank := Rank.silver,
                  rankInfo := RANK_THRESHOLDS Rank.silver }),
        { todos := [{ todo_id := "t1", user_id := "u1", task := "write report",
                      completed := 1, completed_at := some 7, created_at := 1,
                      updated_at := 7 }],
          users := [{ user_id := "u1", username := "ann", current_rank := Rank.silver,
                      total_completed_tasks := 10, rank_upgraded_at := some 7 }],
          rank_upgrades := [{ upgrade_id := "k", user_id := "u1", from_rank := Rank.silver,
                              to_rank := Rank.silver, tasks_completed_at_upgrade := 10,
                              upgraded_at := 7 }] }) ∧
    Rank.silver ≠ calculateRank (10 - 1) := by
  decide

/-- C8 (amended): when an `updateTodo` in which every statement executes flips a task of
the caller from not-completed to completed and the new count `c + 1` has another tier than
`c`, the request succeeds, the transition returned and the event appended both have as
source the tier `τ` stored before the request and as destination `calculateRank (c + 1)`,
the event records the count `c + 1`, and the stored tier becomes `calculateRank (c + 1)`;
when the stored tier was `calculateRank c`, source and destination are those of
`checkRankUpgrade c (c + 1)`. -/
theorem upgrade_transition_recorded (now : Nat) (freshId u todoId : String)
    (task : Option String) (db : Db) (t : TodoRow) (c : Int) (τ : Rank)
    (hsel : todoOf db todoId = some t) (hown : t.user_id = u) (hopen : t.completed = 0)
    (hc : countOf db u = some c) (ht : tierOf db u = some τ)
    (hcross : calculateRank c ≠ calculateRank (c + 1)) :
    (updateTodo (Env.sound now freshId) u todoId { task := task, completed := some true }
      db).1.isSuccess = true ∧
    countOf (updateTodo (Env.sound now freshId) u todoId
      { task := task, completed := some true } db).2 u = some (c + 1) ∧
    (updateTodo (Env.sound now freshId) u todoId
      { task := task, completed := some true } db).1.rankUpgrade? =
        some { upgraded := true, fromRank := τ, toRank := calculateRank (c + 1),
               rankInfo := RANK_THRESHOLDS (calculateRank (c + 1)) } ∧
    eventsOf (updateTodo (Env.sound now freshId) u todoId
      { task := task, completed := some true } db).2 u =
        eventsOf db u ++
          [{ upgrade_id := freshId, user_id := u, from_rank := τ,
             to_rank := calculateRank (c + 1), tasks_completed_at_upgrade := c + 1,
             upgraded_at := now }] ∧
    tierOf (updateTodo (Env.sound now freshId) u todoId
      { task := task, completed := some true } db).2 u = some (calculateRank (c + 1)) ∧
    (τ = calculateRank c →
      checkRankUpgrade c (c + 1) =
        some { fromRank := τ, toRank := calculateRank (c + 1), upgraded := true }) := by
  have _ := hopen
  obtain ⟨k1, k2, _, _, k5⟩ :=
    complete_sound now freshId u todoId task db t c τ hsel hown hc ht
  obtain ⟨m1, m2, m3⟩ := k5 hcross
  refine ⟨k1, k2, m3, m2, m1, ?_⟩
  intro hτ
  unfold checkRankUpgrade
  simp only [hτ, ne_eq, hcross, not_false_eq_true, if_true]

/-- Witness of C8 (amended): count 9, tier iron, one task not completed. -/
theorem upgrade_transition_recorded_witness :
    eventsOf (updateTodo (Env.sound 7 "k") "u1" "t1" { task := none, completed := some true }
      (sampleDb 9 Rank.iron 0 none)).2 "u1" =
        eventsOf (sampleDb 9 Rank.iron 0 none) "u1" ++
          [{ upgrade_id := "k", user_id := "u1", from_rank := Rank.iron,
             to_rank := calculateRank (9 + 1), tasks_completed_at_upgrade := 9 + 1,
             upgraded_at := 7 }] :=
  (upgrade_transition_recorded 7 "k" "u1" "t1" none (sampleDb 9 Rank.iron 0 none)
    { todo_id := "t1", user_id := "u1", task := "write report", completed := 0,
      completed_at := none, created_at := 1, updated_at := 1 } 9 Rank.iron
    (by decide) (by decide) (by decide) (by decide) (by decide) (by decide)).2.2.2.1

/-- C9: for a user with lifetime count `c`, a successful `deleteTodo` of a task of that
user leaves the count `max 0 (c - 1)` when the task was completed (so 0 stays 0) and `c`
when it was not; the stored tier and the event log are unchanged; and `deleteTodo`
succeeds when every statement executes. -/
theorem deleteTodo_count (db : Db) (u todoId : String) (t : TodoRow) (c : Int)
    (hc : countOf db u = some c) (hsel : todoOf db todoId = some t) (hown : t.user_id = u) :
    (∀ env : Env, (deleteTodo env u todoId db).1.isSuccess = true →
      countOf (deleteTodo env u todoId db).2 u =
        some (if t.completed ≠ 0 then max 0 (c - 1) else c) ∧
      tierOf (deleteTodo env u todoId db).2 u = tierOf db u ∧
      (deleteTodo env u todoId db).2.rank_upgrades = db.rank_upgrades) ∧
    (∀ (now : Nat) (freshId : String),
      (deleteTodo (Env.sound now freshId) u todoId db).1.isSuccess = true) := by
  refine ⟨?_, ?_⟩
  · intro env hs
    rw [deleteTodo_of_success env u todoId db t hsel hs]
    by_cases hw : t.completed = 0
    · simp only [hw, ne_eq, not_true_eq_false, if_false]
      exact ⟨hc, rfl, rfl⟩
    · simp only [hw, ne_eq, not_false_eq_true, if_true]
      rw [countOf_decrement, tierOf_decrement, countOf_deleteTodo, hc]
      exact ⟨rfl, rfl, rfl⟩
  · intro now freshId
    rw [deleteTodo_sound_success now freshId u todoId db t hsel hown]
    rfl

/-- Witness of C9: count 0, one completed task, deleted. -/
theorem deleteTodo_count_witness :
    countOf (deleteTodo (Env.sound 7 "k") "u1" "t1" (sampleDb 0 Rank.iron 1 (some 3))).2 "u1"
      = some 0 :=
  ((deleteTodo_count (sampleDb 0 Rank.iron 1 (some 3)) "u1" "t1"
    { todo_id := "t1", user_id := "u1", task := "write report", completed := 1,
      completed_at := some 3, created_at := 1, updated_at := 1 } 0
    (by decide) (by decide) (by decide)).1 (Env.sound 7 "k") (by decide)).1

/-- C10 (evaluation at the failing input): the task is stored completed (`completed = 1`,
completed at time 3) and the request supplies `completed: true`.  The test
`completed !== wasCompleted` compares the boolean `true` with the number `1` and holds, so
the count goes from 9 to 10, `updateUserRank` runs, the tier becomes silver and an event is
recorded; only the completion timestamp stays as it was. -/
theorem updateTodo_same_flag_counts_again :
    updateTodo (Env.sound 7 "k") "u1" "t1" { task := none, completed := some true }
        (sampleDb 9 Rank.iron 1 (some 3)) =
      (Response.success 200
          (some { todo_id := "t1", user_id := "u1", task := "write report", completed := 1,
                  completed_at := some 3, created_at := 1, updated_at := 7 })
          (some { upgraded := true, fromRank := Rank.iron, toRank := Rank.silver,
                  rankInfo := RANK_THRESHOLDS Rank.silver }),
        { todos := [{ todo_id := "t1", user_id := "u1", task := "write report",
                      completed := 1, completed_at := some 3, created_at := 1,
                      updated_at := 7 }],
          users := [{ user_id := "u1", username := "ann", current_rank := Rank.silver,
                      total_completed_tasks := 10, rank_upgraded_at := some 7 }],
          rank_upgrades := [{ upgrade_id := "k", user_id := "u1", from_rank := Rank.iron,
                              to_rank := Rank.silver, tasks_completed_at_upgrade := 10,
                              upgraded_at := 7 }] }) ∧
    updateTodo (Env.sound 7 "k") "u1" "t1" { task := none, completed := some false }
        (sampleDb 9 Rank.iron 0 none) =
      (Response.success 200
          (some { todo_id := "t1", user_id := "u1", task := "write report", completed := 0,
                  completed_at := none, created_at := 1, updated_at := 7 }) none,
        { todos := [{ todo_id := "t1", user_id := "u1", task := "write report",
                      completed := 0, completed_at := none, created_at := 1,
                      updated_at := 7 }],
          users := [{ user_id := "u1", username := "ann", current_rank := Rank.iron,
                      total_completed_tasks := 8, rank_upgraded_at := none }],
          rank_upgrades := [] }) := by
  decide

/-! ## Successive completions -/

theorem crossings_step (j : Int) (hj : 0 ≤ j) :
    crossings.filter (fun x => decide (x.2.2 ≤ j + 1)) =
      crossings.filter (fun x => decide (x.2.2 ≤ j)) ++
        (if calculateRank j = calculateRank (j + 1) then []
         else [(calculateRank j, calculateRank (j + 1), j + 1)]) := by
  have hr : j < 9 ∨ j = 9 ∨ (10 ≤ j ∧ j < 24) ∨ j = 24 ∨ (25 ≤ j ∧ j < 49) ∨ j = 49 ∨
      (50 ≤ j ∧ j < 99) ∨ j = 99 ∨ (100 ≤ j ∧ j < 199) ∨ j = 199 ∨ 200 ≤ j := by omega
  rw [calculateRank_closed j, calculateRank_closed (j + 1)]
  simp only [crossings, List.filter_cons, List.filter_nil, decide_eq_true_eq]
  rcases hr with h | h | h | h | h | h | h | h | h | h | h
  all_goals first
    | (subst h; decide)
    | (simp (disch := omega) only [if_pos, if_neg]; simp)

/-- Successive completions from a state in sync at count `j`: every request succeeds, the
count grows by the number of requests, the tier follows, and the event log grows by the
crossings passed. -/
theorem runCompletions_invariant (u : String) (steps : List CompleteStep) :
    ∀ (db : Db) (j : Int), 0 ≤ j →
      countOf db u = some j → tierOf db u = some (calculateRank j) →
      (eventsOf db u).map RankUpgradeRow.summary =
        crossings.filter (fun x => decide (x.2.2 ≤ j)) →
      (∀ s ∈ steps, (todoOf db s.todoId).map (fun t => t.user_id) = some u) →
      (∀ r ∈ (runCompletions u steps db).1, r.isSuccess = true) ∧
      (runCompletions u steps db).1.length = steps.length ∧
      countOf (runCompletions u steps db).2 u = some (j + (steps.length : Int)) ∧
      tierOf (runCompletions u steps db).2 u =
        some (calculateRank (j + (steps.length : Int))) ∧
      (eventsOf (runCompletions u steps db).2 u).map RankUpgradeRow.summary =
        crossings.filter (fun x => decide (x.2.2 ≤ j + (steps.length : Int))) := by
  induction steps with
  | nil =>
      intro db j _ hc ht he _
      simp only [runCompletions, List.length_nil, Nat.cast_zero, add_zero]
      exact ⟨by simp, trivial, hc, ht, he⟩
  | cons s rest ih =>
      intro db j hj hc ht he htasks
      have hs := htasks s (List.mem_cons_self _ _)
      cases hsel : todoOf db s.todoId with
      | none => rw [hsel] at hs; simp at hs
      | some t =>
          rw [hsel] at hs
          simp only [Option.map_some', Option.some.injEq] at hs
          obtain ⟨k1, k2, k3, k4, k5⟩ := complete_sound s.now s.freshId u s.todoId s.task db t j
            (calculateRank j) hsel hs hc ht
          have htier : tierOf (updateTodo (Env.sound s.now s.freshId) u s.todoId
              { task := s.task, completed := some true } db).2 u
                = some (calculateRank (j + 1)) := by
            by_cases h : calculateRank j = calculateRank (j + 1)
            · rw [(k4 h).1, h]
            · exact (k5 h).1
          have hev : (eventsOf (updateTodo (Env.sound s.now s.freshId) u s.todoId
              { task := s.task, completed := some true } db).2 u).map RankUpgradeRow.summary
                = crossings.filter (fun x => decide (x.2.2 ≤ j + 1)) := by
            rw [crossings_step j hj]
            by_cases h : calculateRank j = calculateRank (j + 1)
            · rw [(k4 h).2.1, he]
              simp only [h, if_true, List.append_nil]
            · rw [(k5 h).2.1, List.map_append, he]
              simp only [h, if_false]
              rfl
          have hrest : ∀ s2 ∈ rest, (todoOf (updateTodo (Env.sound s.now s.freshId) u
              s.todoId { task := s.task, completed := some true } db).2 s2.todoId).map
                (fun t => t.user_id) = some u := by
            intro s2 hs2
            rw [k3 s2.todoId]
            exact htasks s2 (List.mem_cons_of_mem _ hs2)
          obtain ⟨i1, i2, i3, i4, i5⟩ := ih _ (j + 1) (by omega) k2 htier hev hrest
          have hlen : j + ((s :: rest).length : Int) = j + 1 + (rest.length : Int) := by
            simp only [List.length_cons, Nat.cast_add, Nat.cast_one]; ring
          rw [hlen]
          simp only [runCompletions]
          refine ⟨?_, ?_, i3, i4, i5⟩
          · intro r hr
            rcases List.mem_cons.mp hr with h | h
            · rw [h]; exact k1
            · exact i1 r h
          · simp only [List.length_cons, i2]

theorem getRankProgress_ten (fl : ℚ → ℚ) :
    ∃ p, getRankProgress fl 10 = some p ∧ p.isMaxRank = false ∧
      p.nextRank = some Rank.gold :=
  ⟨_, getRankProgress_of_rank fl 10 Rank.silver Rank.gold (by decide) (by decide)
    (by decide), rfl, rfl⟩

/-- Completions when every statement executes: for a fresh user (count 0, tier iron, no
event) and `k` requests that each complete a distinct, not completed task of the user, every
request succeeds, the count is `k`, the stored tier is `calculateRank k`, and the event log
holds exactly the crossings (adjacent tiers, count at the crossing) whose threshold is at
most `k`; for `k = 10` that is the one event iron -> silver at count 10; and
`getRankProgress 10` reports `isMaxRank = false` and `nextRank = gold`. -/
theorem completions_from_fresh (u : String) (steps : List CompleteStep) (db : Db)
    (hc : countOf db u = some 0) (ht : tierOf db u = some Rank.iron)
    (he : eventsOf db u = [])
    (hdistinct : (steps.map (fun s => s.todoId)).Nodup)
    (htasks : ∀ s ∈ steps, ∃ t, todoOf db s.todoId = some t ∧ t.user_id = u ∧
      t.completed = 0) :
    (∀ r ∈ (runCompletions u steps db).1, r.isSuccess = true) ∧
    (runCompletions u steps db).1.length = steps.length ∧
    countOf (runCompletions u steps db).2 u = some (steps.length : Int) ∧
    tierOf (runCompletions u steps db).2 u = some (calculateRank (steps.length : Int)) ∧
    (eventsOf (runCompletions u steps db).2 u).map RankUpgradeRow.summary =
      crossings.filter (fun x => decide (x.2.2 ≤ (steps.length : Int))) ∧
    (steps.length = 10 →
      (eventsOf (runCompletions u steps db).2 u).map RankUpgradeRow.summary =
        [(Rank.iron, Rank.silver, 10)]) ∧
    (∀ fl : ℚ → ℚ, ∃ p, getRankProgress fl 10 = some p ∧ p.isMaxRank = false ∧
      p.nextRank = some Rank.gold) := by
  have _ := hdistinct
  have howner : ∀ s ∈ steps, (todoOf db s.todoId).map (fun t => t.user_id) = some u := by
    intro s hs
    obtain ⟨t, h1, h2, _⟩ := htasks s hs
    rw [h1]; simp [h2]
  have hev : (eventsOf db u).map RankUpgradeRow.summary =
      crossings.filter (fun x => decide (x.2.2 ≤ (0 : Int))) := by
    rw [he]; decide
  obtain ⟨i1, i2, i3, i4, i5⟩ :=
    runCompletions_invariant u steps db 0 (le_refl 0) hc (by rw [ht]; decide) hev howner
  simp only [zero_add] at i3 i4 i5
  refine ⟨i1, i2, i3, i4, i5, ?_, getRankProgress_ten⟩
  intro h10
  rw [i5, h10]
  decide

/-- Ten completions by a fresh user with ten open tasks, every statement executing. -/
theorem completions_from_fresh_witness :
    countOf (runCompletions "u1" tenSteps tenTasksDb).2 "u1" = some 10 ∧
    (eventsOf (runCompletions "u1" tenSteps tenTasksDb).2 "u1").map RankUpgradeRow.summary =
      [(Rank.iron, Rank.silver, 10)] :=
  ⟨(completions_from_fresh "u1" tenSteps tenTasksDb (by decide) (by decide) (by decide)
      (by decide)
      (fun s hs => ⟨sampleTask s.todoId,
        (by decide : ∀ s ∈ tenSteps, todoOf tenTasksDb s.todoId = some (sampleTask s.todoId))
          s hs, rfl, rfl⟩)).2.2.1,
   (completions_from_fresh "u1" tenSteps tenTasksDb (by decide) (by decide) (by decide)
      (by decide)
      (fun s hs => ⟨sampleTask s.todoId,
        (by decide : ∀ s ∈ tenSteps, todoOf tenTasksDb s.todoId = some (sampleTask s.todoId))
          s hs, rfl, rfl⟩)).2.2.2.2.2.1 (by decide)⟩

/-- Witness of C7: exact arithmetic is a rounding, and the count 12 of the silver tier
`[10, 24]` has progress 13, the rounding of `100 * 2 / 15`. -/
theorem getRankProgress_spec_witness :
    IsDoubleRounding (fun x => x) ∧ (0 : Int) ≤ 12 ∧
    (RANK_THRESHOLDS (calculateRank 12)).max = some 24 ∧
    ∃ p, getRankProgress (fun x => x) 12 = some p ∧ p.progress = 13 := by
  refine ⟨fun x _ => by simp only [sub_self, abs_zero]; positivity, by decide, by decide, ?_⟩
  obtain ⟨p, h1, h2, _⟩ := (getRankProgress_spec (fun x => x)
    (fun x _ => by simp only [sub_self, abs_zero]; positivity) 12 (by decide)).1 24
    (by decide)
  exact ⟨p, h1, h2.trans (by decide)⟩

/-! ## Not found and forbidden -/

theorem todoOf_none_iff (db : Db) (todoId : String) :
    todoOf db todoId = none ↔ selectTodosById todoId db = [] := by
  unfold todoOf
  cases selectTodosById todoId db <;> simp

theorem todoOf_cons (db : Db) (todoId : String) (t : TodoRow) (rest : List TodoRow)
    (h : selectTodosById todoId db = t :: rest) : todoOf db todoId = some t := by
  unfold todoOf; rw [h]; rfl

/-- The responses 404 and 403 of `getTodoById`, and the database after it. -/
theorem getTodoById_lookup (env : Env) (u todoId : String) (db : Db) :
    ((getTodoById env u todoId db).1.status = 404 ↔
      readExecutes env = true ∧ todoOf db todoId = none) ∧
    ((getTodoById env u todoId db).1.status = 403 ↔
      readExecutes env = true ∧ ∃ t, todoOf db todoId = some t ∧ t.user_id ≠ u) ∧
    (getTodoById env u todoId db).2 = db := by
  unfold getTodoById readExecutes
  by_cases h1 : env.fails Stmt.getConnection = true
  · simp [h1, Response.status]
  by_cases h3 : env.fails Stmt.selectTodo = true
  · simp [h1, h3, Response.status]
  simp only [h1, h3, if_false, Bool.false_eq_true, Bool.not_false, Bool.and_self, true_and]
  cases hsel : selectTodosById todoId db with
  | nil =>
      have hnone := (todoOf_none_iff db todoId).mpr hsel
      simp [Response.status, hnone]
  | cons t rest =>
      have hsome := todoOf_cons db todoId t rest hsel
      by_cases h4 : (t.user_id != u) = true
      · have hne : t.user_id ≠ u := by simpa using h4
        simp [h4, Response.status, hsome, hne]
      · have heq : t.user_id = u := by simpa using h4
        simp [h4, Response.status, hsome, heq]

/-- The responses 404 and 403 of `updateTodo`, and the database after them. -/
theorem updateTodo_lookup (env : Env) (u todoId : String) (body : UpdateBody) (db : Db) :
    ((updateTodo env u todoId body db).1.status = 404 ↔
      lookupExecutes env = true ∧ todoOf db todoId = none) ∧
    ((updateTodo env u todoId body db).1.status = 403 ↔
      lookupExecutes env = true ∧ ∃ t, todoOf db todoId = some t ∧ t.user_id ≠ u) ∧
    ((updateTodo env u todoId body db).1.status = 404 ∨
      (updateTodo env u todoId body db).1.status = 403 →
        (updateTodo env u todoId body db).2 = db ∧
        (updateTodo env u todoId body db).1.isSuccess = false) := by
  unfold updateTodo lookupExecutes
  by_cases h1 : env.fails Stmt.getConnection = true
  · simp [h1, Response.status]
  by_cases h2 : env.fails Stmt.beginTransaction = true
  · simp [h1, h2, Response.status]
  by_cases h3 : env.fails Stmt.selectTodo = true
  · simp [h1, h2, h3, Response.status]
  simp only [h1, h2, h3, if_false, Bool.false_eq_true, Bool.not_false, Bool.and_self, true_and]
  cases hsel : selectTodosById todoId db with
  | nil =>
      have hnone := (todoOf_none_iff db todoId).mpr hsel
      simp [Response.status, Response.isSuccess, hnone]
  | cons t rest =>
      have hsome := todoOf_cons db todoId t rest hsel
      by_cases h4 : (t.user_id != u) = true
      · have hne : t.user_id ≠ u := by simpa using h4
        simp [h4, Response.status, Response.isSuccess, hsome, hne]
      · have heq : t.user_id = u := by simpa using h4
        simp only [h4, if_false, Bool.false_eq_true, hsome, Option.some.injEq, exists_eq_left',
          heq, ne_eq, not_true_eq_false, iff_false, reduceCtorEq]
        by_cases h5 : (buildUpdateFields body (JsVal.num t.completed)).length = 0
        · simp [h5, Response.status]
        simp only [h5, if_false]
        by_cases h6 : env.fails Stmt.updateTodos = true
        · simp [h6, Response.status]
        simp only [h6, if_false, Bool.false_eq_true]
        cases rankBookkeeping env u body.completed (JsVal.num t.completed)
            (sqlUpdateTodos env.now (buildUpdateFields body (JsVal.num t.completed))
              todoId db) with
        | none => simp [Response.status]
        | some p =>
            simp only []
            by_cases h7 : env.fails Stmt.selectUpdatedTodo = true
            · simp [h7, Response.status]
            simp only [h7, if_false, Bool.false_eq_true]
            by_cases h8 : env.fails Stmt.commit = true
            · simp [h8, Response.status]
            simp [h8, Response.status]

/-- The responses 404 and 403 of `deleteTodo`, and the database after them. -/
theorem deleteTodo_lookup (env : Env) (u todoId : String) (db : Db) :
    ((deleteTodo env u todoId db).1.status = 404 ↔
      lookupExecutes env = true ∧ todoOf db todoId = none) ∧
    ((deleteTodo env u todoId db).1.status = 403 ↔
      lookupExecutes env = true ∧ ∃ t, todoOf db todoId = some t ∧ t.user_id ≠ u) ∧
    ((deleteTodo env u todoId db).1.status = 404 ∨
      (deleteTodo env u todoId db).1.status = 403 →
        (deleteTodo env u todoId db).2 = db ∧
        (deleteTodo env u todoId db).1.isSuccess = false) := by
  unfold deleteTodo lookupExecutes
  by_cases h1 : env.fails Stmt.getConnection = true
  · simp [h1, Response.status]
  by_cases h2 : env.fails Stmt.beginTransaction = true
  · simp [h1, h2, Response.status]
  by_cases h3 : env.fails Stmt.selectTodo = true
  · simp [h1, h2, h3, Response.status]
  simp only [h1, h2, h3, if_false, Bool.false_eq_true, Bool.not_false, Bool.and_self, true_and]
  cases hsel : selectTodosById todoId db with
  | nil =>
      have hnone := (todoOf_none_iff db todoId).mpr hsel
      simp [Response.status, Response.isSuccess, hnone]
  | cons t rest =>
      have hsome := todoOf_cons db todoId t rest hsel
      by_cases h4 : (t.user_id != u) = true
      · have hne : t.user_id ≠ u := by simpa using h4
        simp [h4, Response.status, Response.isSuccess, hsome, hne]
      · have heq : t.user_id = u := by simpa using h4
        simp only [h4, if_false, Bool.false_eq_true, hsome, Option.some.injEq, exists_eq_left',
          heq, ne_eq, not_true_eq_false, iff_false, reduceCtorEq]
        by_cases h6 : env.fails Stmt.deleteTodos = true
        · simp [h6, Response.status]
        simp only [h6, if_false, Bool.false_eq_true]
        by_cases hw : (JsVal.num t.completed).truthy = true
        · simp only [hw, if_true]
          by_cases h7 : env.fails Stmt.decrementCount = true
          · simp [h7, Response.status]
          by_cases h8 : env.fails Stmt.commit = true
          · simp [h7, h8, Response.status]
          simp [h7, h8, Response.status]
        · simp only [hw, if_false, Bool.false_eq_true]
          by_cases h8 : env.fails Stmt.commit = true
          · simp [h8, Response.status]
          simp [h8, Response.status]

/-! ## The event log under arbitrary requests -/

/-- A rewrite of the user rows that keeps their identifiers keeps every user's row in
place. -/
theorem countOf_map_users (db : Db) (f : UserRow → UserRow)
    (hf : ∀ a, (f a).user_id = a.user_id) (u : String) (c : Int)
    (hc : countOf db u = some c) :
    ∃ c2, countOf { db with users := db.users.map f } u = some c2 := by
  unfold countOf selectUsersById at hc ⊢
  simp only []
  rw [head?_filter_map_key (fun r : UserRow => r.user_id == u) f f
    (fun a => by simp only [hf]) (fun _ _ => rfl)]
  cases h : (List.filter (fun r : UserRow => r.user_id == u) db.users).head? with
  | none => rw [h] at hc; simp at hc
  | some row => exact ⟨(f row).total_completed_tasks, rfl⟩

theorem countOf_some_increment (db : Db) (v u : String) (c : Int)
    (hc : countOf db u = some c) : ∃ c2, countOf (sqlIncrementCount v db) u = some c2 := by
  apply countOf_map_users db _ _ u c hc
  intro a
  by_cases h : (a.user_id == v) = true
  · simp only [h, if_true]
  · simp only [h, if_false, Bool.false_eq_true]

theorem countOf_some_decrement (db : Db) (v u : String) (c : Int)
    (hc : countOf db u = some c) : ∃ c2, countOf (sqlDecrementCount v db) u = some c2 := by
  apply countOf_map_users db _ _ u c hc
  intro a
  by_cases h : (a.user_id == v) = true
  · simp only [h, if_true]
  · simp only [h, if_false, Bool.false_eq_true]

theorem countOf_some_updateRank (db : Db) (now : Nat) (r : Rank) (v u : String) (c : Int)
    (hc : countOf db u = some c) : ∃ c2, countOf (sqlUpdateRank now r v db) u = some c2 := by
  apply countOf_map_users db _ _ u c hc
  intro a
  by_cases h : (a.user_id == v) = true
  · simp only [h, if_true]
  · simp only [h, if_false, Bool.false_eq_true]

theorem eventsOf_insertUpgrade_other (db : Db) (v u upgradeId : String) (now : Nat)
    (a b : Rank) (n : Int) (hvu : v ≠ u) :
    eventsOf (sqlInsertUpgrade now upgradeId v a b n db) u = eventsOf db u := by
  simp [eventsOf, sqlInsertUpgrade, List.filter_append, hvu]

/-- The database left by the rank service, with the count that an appended event
records: the count stored for the user when the service was called. -/
theorem updateUserRank_cases_count (env : Env) (u : String) (db : Db) :
    (updateUserRank env u db).2 = db ∨
    (∃ r, (updateUserRank env u db).2 = sqlUpdateRank env.now r u db) ∨
    (∃ r a n, countOf db u = some n ∧ (updateUserRank env u db).2 =
      sqlInsertUpgrade env.now env.freshId u a r n (sqlUpdateRank env.now r u db)) := by
  unfold updateUserRank
  by_cases h1 : env.fails Stmt.selectUser = true
  · left; simp only [h1, if_true]
  · simp only [h1, if_false, Bool.false_eq_true]
    cases hsel : selectUsersById u db with
    | nil => left; rfl
    | cons user rest =>
        have hcount : countOf db u = some user.total_completed_tasks := by
          unfold countOf; rw [hsel]; rfl
        simp only []
        cases checkRankUpgrade (user.total_completed_tasks - 1) user.total_completed_tasks with
        | none => left; rfl
        | some info =>
            simp only []
            by_cases h6 : info.upgraded = true
            · simp only [h6, if_true]
              by_cases h2 : env.fails Stmt.updateRank = true
              · left; simp only [h2, if_true]
              · simp only [h2, if_false, Bool.false_eq_true]
                by_cases h3 : env.fails Stmt.insertUpgrade = true
                · right; left; simp only [h3, if_true]; exact ⟨_, rfl⟩
                · right; right
                  simp only [h3, if_false, Bool.false_eq_true]
                  exact ⟨_, _, _, hcount, rfl⟩
            · left; simp only [h6, if_false, Bool.false_eq_true]

/-- The databases that `updateTodo` can leave. -/
theorem updateTodo_cases (env : Env) (v todoId : String) (body : UpdateBody) (db : Db) :
    (updateTodo env v todoId body db).2 = db ∨
    ∃ fields,
      (updateTodo env v todoId body db).2 = sqlUpdateTodos env.now fields todoId db ∨
      (updateTodo env v todoId body db).2 =
        sqlDecrementCount v (sqlUpdateTodos env.now fields todoId db) ∨
      (updateTodo env v todoId body db).2 =
        (updateUserRank env v
          (sqlIncrementCount v (sqlUpdateTodos env.now fields todoId db))).2 := by
  unfold updateTodo
  by_cases h1 : env.fails Stmt.getConnection = true
  · left; simp [h1]
  by_cases h2 : env.fails Stmt.beginTransaction = true
  · left; simp [h1, h2]
  by_cases h3 : env.fails Stmt.selectTodo = true
  · left; simp [h1, h2, h3]
  simp only [h1, h2, h3, if_false, Bool.false_eq_true]
  cases selectTodosById todoId db with
  | nil => left; rfl
  | cons t rest =>
      simp only []
      by_cases h4 : (t.user_id != v) = true
      · left; simp [h4]
      simp only [h4, if_false, Bool.false_eq_true]
      by_cases h5 : (buildUpdateFields body (JsVal.num t.completed)).length = 0
      · left; simp [h5]
      simp only [h5, if_false]
      by_cases h6 : env.fails Stmt.updateTodos = true
      · left; simp [h6]
      simp only [h6, if_false, Bool.false_eq_true]
      cases hb : rankBookkeeping env v body.completed (JsVal.num t.completed)
          (sqlUpdateTodos env.now (buildUpdateFields body (JsVal.num t.completed))
            todoId db) with
      | none => left; rfl
      | some p =>
          obtain ⟨r, db2⟩ := p
          simp only []
          by_cases h7 : env.fails Stmt.selectUpdatedTodo = true
          · left; simp [h7]
          simp only [h7, if_false, Bool.false_eq_true]
          by_cases h8 : env.fails Stmt.commit = true
          · left; simp [h8]
          simp only [h8, if_false, Bool.false_eq_true]
          right
          refine ⟨buildUpdateFields body (JsVal.num t.completed), ?_⟩
          cases hcomp : body.completed with
          | none =>
              rw [hcomp, rankBookkeeping_none] at hb
              simp only [Option.some.injEq, Prod.mk.injEq] at hb
              left; exact hb.2.symm
          | some b =>
              rw [hcomp] at hb
              cases b with
              | true =>
                  rw [rankBookkeeping_true] at hb
                  by_cases hf : env.fails Stmt.incrementCount = true
                  · simp [hf] at hb
                  · simp only [hf, if_false, Option.some.injEq, Prod.mk.injEq,
                      Bool.false_eq_true] at hb
                    right; right; exact hb.2.symm
              | false =>
                  rw [rankBookkeeping_false] at hb
                  by_cases hf : env.fails Stmt.decrementCount = true
                  · simp [hf] at hb
                  · simp only [hf, if_false, Option.some.injEq, Prod.mk.injEq,
                      Bool.false_eq_true] at hb
                    right; left; exact hb.2.symm

/-- The databases that `deleteTodo` can leave. -/
theorem deleteTodo_cases (env : Env) (v todoId : String) (db : Db) :
    (deleteTodo env v todoId db).2 = db ∨
    (deleteTodo env v todoId db).2 = sqlDeleteTodo todoId db ∨
    (deleteTodo env v todoId db).2 = sqlDecrementCount v (sqlDeleteTodo todoId db) := by
  unfold deleteTodo
  by_cases h1 : env.fails Stmt.getConnection = true
  · left; simp [h1]
  by_cases h2 : env.fails Stmt.beginTransaction = true
  · left; simp [h1, h2]
  by_cases h3 : env.fails Stmt.selectTodo = true
  · left; simp [h1, h2, h3]
  simp only [h1, h2, h3, if_false, Bool.false_eq_true]
  cases selectTodosById todoId db with
  | nil => left; rfl
  | cons t rest =>
      simp only []
      by_cases h4 : (t.user_id != v) = true
      · left; simp [h4]
      simp only [h4, if_false, Bool.false_eq_true]
      by_cases h6 : env.fails Stmt.deleteTodos = true
      · left; simp [h6]
      simp only [h6, if_false, Bool.false_eq_true]
      by_cases hw : (JsVal.num t.completed).truthy = true
      · simp only [hw, if_true]
        by_cases h7 : env.fails Stmt.decrementCount = true
        · left; simp [h7]
        by_cases h8 : env.fails Stmt.commit = true
        · left; simp [h7, h8]
        right; right; simp [h7, h8]
      · simp only [hw, if_false, Bool.false_eq_true]
        by_cases h8 : env.fails Stmt.commit = true
        · left; simp [h8]
        right; left; simp [h8]

/-- One request, seen from a user whose row exists: the row still exists afterwards, and the
event log of the user is as before or has one more event, which records the count stored
after the request. -/
theorem handle_events (u : String) (r : Request) (db : Db) (c : Int)
    (hc : countOf db u = some c) :
    ∃ c2, countOf (r.handle db).2 u = some c2 ∧
      (eventsOf (r.handle db).2 u = eventsOf db u ∨
       ∃ e, eventsOf (r.handle db).2 u = eventsOf db u ++ [e] ∧
         e.tasks_completed_at_upgrade = c2) := by
  cases r with
  | create env v task =>
      obtain ⟨h1, h2⟩ := createTodo_frame env v task db
      refine ⟨c, ?_, Or.inl ?_⟩
      · simp only [Request.handle]; rw [countOf_congr db _ u h1]; exact hc
      · simp only [Request.handle]; exact eventsOf_congr db _ u h2
  | delete env v todoId =>
      simp only [Request.handle]
      rcases deleteTodo_cases env v todoId db with h | h | h
      · rw [h]; exact ⟨c, hc, Or.inl rfl⟩
      · rw [h]; exact ⟨c, hc, Or.inl rfl⟩
      · rw [h]
        obtain ⟨c2, h2⟩ := countOf_some_decrement (sqlDeleteTodo todoId db) v u c hc
        exact ⟨c2, h2, Or.inl rfl⟩
  | update env v todoId body =>
      simp only [Request.handle]
      rcases updateTodo_cases env v todoId body db with h | ⟨fields, h | h | h⟩
      · rw [h]; exact ⟨c, hc, Or.inl rfl⟩
      · rw [h]; exact ⟨c, hc, Or.inl rfl⟩
      · rw [h]
        obtain ⟨c2, h2⟩ :=
          countOf_some_decrement (sqlUpdateTodos env.now fields todoId db) v u c hc
        exact ⟨c2, h2, Or.inl rfl⟩
      · rw [h]
        obtain ⟨c1, h1⟩ :=
          countOf_some_increment (sqlUpdateTodos env.now fields todoId db) v u c hc
        have hev : eventsOf (sqlIncrementCount v (sqlUpdateTodos env.now fields todoId db)) u
            = eventsOf db u := rfl
        generalize sqlIncrementCount v (sqlUpdateTodos env.now fields todoId db) = y
          at h1 hev ⊢
        rcases updateUserRank_cases_count env v y with k | ⟨rk, k⟩ | ⟨rk, a, n, kn, k⟩
        · rw [k]; exact ⟨c1, h1, Or.inl hev⟩
        · rw [k]
          obtain ⟨c2, h2⟩ := countOf_some_updateRank y env.now rk v u c1 h1
          exact ⟨c2, h2, Or.inl ((eventsOf_updateRank env.now rk v u y).trans hev)⟩
        · rw [k]
          by_cases hvu : v = u
          · subst hvu
            refine ⟨n, ?_, Or.inr ⟨RankUpgradeRow.mk env.freshId v a rk n env.now, ?_, rfl⟩⟩
            · rw [countOf_insertUpgrade, countOf_updateRank]; exact kn
            · rw [eventsOf_insertUpgrade, eventsOf_updateRank, hev]
          · obtain ⟨c2, h2⟩ := countOf_some_updateRank y env.now rk v u c1 h1
            refine ⟨c2, ?_, Or.inl ?_⟩
            · rw [countOf_insertUpgrade]; exact h2
            · rw [eventsOf_insertUpgrade_other _ _ _ _ _ _ _ _ hvu, eventsOf_updateRank, hev]

/-- The event counts stay sorted, and bounded by the stored count, along requests that never
lower the stored count. -/
theorem runRequests_sorted (u : String) (reqs : List Request) :
    ∀ (db : Db) (c : Int), countOf db u = some c →
      (∀ n ∈ eventCounts db u, n ≤ c) →
      (eventCounts db u).Pairwise (fun a b => a ≤ b) →
      countNeverDrops u reqs db = true →
      (eventCounts (runRequests reqs db).2 u).Pairwise (fun a b => a ≤ b) ∧
      ∃ c2, countOf (runRequests reqs db).2 u = some c2 ∧
        ∀ n ∈ eventCounts (runRequests reqs db).2 u, n ≤ c2 := by
  induction reqs with
  | nil => intro db c hc hb hs _; exact ⟨hs, c, hc, hb⟩
  | cons r rest ih =>
      intro db c hc hb hs hmono
      simp only [countNeverDrops, Bool.and_eq_true] at hmono
      obtain ⟨hstep, hrest⟩ := hmono
      obtain ⟨c2, h2, hev⟩ := handle_events u r db c hc
      rw [hc, h2] at hstep
      have hle : c ≤ c2 := by simpa using hstep
      simp only [runRequests]
      apply ih (r.handle db).2 c2 h2 _ _ hrest
      · intro n hn
        unfold eventCounts at hn hb
        rcases hev with h | ⟨e, h, he⟩
        · rw [h] at hn
          exact le_trans (hb n hn) hle
        · rw [h, List.map_append, List.mem_append] at hn
          rcases hn with hn | hn
          · exact le_trans (hb n hn) hle
          · simp only [List.map_cons, List.map_nil, List.mem_singleton] at hn
            rw [hn, he]
      · unfold eventCounts at hb hs ⊢
        rcases hev with h | ⟨e, h, he⟩
        · rw [h]; exact hs
        · rw [h, List.map_append, List.pairwise_append]
          refine ⟨hs, List.pairwise_singleton _ _, ?_⟩
          intro a ha b hb2
          simp only [List.map_cons, List.map_nil, List.mem_singleton] at hb2
          rw [hb2, he]
          exact le_trans (hb a ha) hle

/-! ## Task text on creation -/

theorem dropWhile_self_of_head {α : Type} (p : α → Bool) (l : List α)
    (h : ∀ a, l.head? = some a → p a = false) : l.dropWhile p = l := by
  cases l with
  | nil => rfl
  | cons a rest =>
      have ha := h a rfl
      simp [List.dropWhile_cons, ha]

theorem head_dropWhile_false {α : Type} (p : α → Bool) (l : List α) (a : α)
    (h : (l.dropWhile p).head? = some a) : p a = false := by
  induction l with
  | nil => simp at h
  | cons b rest ih =>
      by_cases hb : p b = true
      · simp only [List.dropWhile_cons, hb, if_true] at h
        exact ih h
      · simp only [List.dropWhile_cons, hb, if_false, Bool.false_eq_true, List.head?_cons,
          Option.some.injEq] at h
        rw [← h]
        simpa using hb

/-- Trimming a trimmed text changes nothing. -/
theorem jsTrim_idempotent (s : String) : jsTrim (jsTrim s) = jsTrim s := by
  unfold jsTrim
  simp only []
  generalize hl : s.data.dropWhile jsIsWhitespace = l
  generalize hm : l.reverse.dropWhile jsIsWhitespace = m
  have hpre : m.reverse <+: l := by
    have hsuf : m <:+ l.reverse := by rw [← hm]; exact List.dropWhile_suffix _
    have := List.reverse_prefix.mpr hsuf
    simpa using this
  have h1 : m.reverse.dropWhile jsIsWhitespace = m.reverse := by
    apply dropWhile_self_of_head
    intro a ha
    obtain ⟨t, ht⟩ := hpre
    have hhead : l.head? = some a := by
      rw [← ht]
      cases hmr : m.reverse with
      | nil => rw [hmr] at ha; simp at ha
      | cons b rest =>
          rw [hmr] at ha
          simpa using ha
    rw [← hl] at hhead
    exact head_dropWhile_false _ _ _ hhead
  have h2 : m.dropWhile jsIsWhitespace = m := by
    rw [← hm]; exact List.dropWhile_idempotent _ _
  rw [h1, List.reverse_reverse, h2]

/-- The validation of `createTodo`: the response is 400 exactly when the text is missing or
empty after trimming, whatever the environment; and after a successful `createTodo` the new
row is the last one of the table, its text is the trimmed text, which is non-empty and equal
to its own trimmed form, and its completion flag is `0`. -/
theorem createTodo_validation (env : Env) (u : String) (task : Option String) (db : Db) :
    ((createTodo env u task db).1.status = 400 ↔
      task = none ∨ ∃ s, task = some s ∧ jsTrim s = "") ∧
    ((createTodo env u task db).1.isSuccess = true →
      ∃ s, task = some s ∧ jsTrim s ≠ "" ∧ jsTrim (jsTrim s) = jsTrim s ∧
        (createTodo env u task db).2.todos =
          db.todos ++ [{ todo_id := env.freshId, user_id := u, task := jsTrim s,
                         completed := 0, completed_at := none, created_at := env.now,
                         updated_at := env.now }]) := by
  unfold createTodo
  cases task with
  | none => simp [Response.status, Response.isSuccess]
  | some s =>
      have hempty : s = "" → jsTrim s = "" := by intro h; rw [h]; decide
      simp only []
      by_cases hcond : (decide (s = "") || decide (jsTrim s = "")) = true
      · have h0 : jsTrim s = "" := by
          simp only [Bool.or_eq_true, decide_eq_true_eq] at hcond
          rcases hcond with h | h
          · exact hempty h
          · exact h
        simp only [hcond, if_true]
        simp [Response.status, Response.isSuccess, h0]
      · have h0 : ¬ jsTrim s = "" := by
          intro h
          apply hcond
          simp [h]
        simp only [hcond, if_false, Bool.false_eq_true]
        by_cases h1 : env.fails Stmt.getConnection = true
        · simp [h1, Response.status, Response.isSuccess, h0]
        by_cases h2 : env.fails Stmt.insertTodo = true
        · simp [h1, h2, Response.status, Response.isSuccess, h0]
        by_cases h3 : env.fails Stmt.selectNewTodo = true
        · simp [h1, h2, h3, Response.status, Response.isSuccess, h0]
        simp only [h1, h2, h3, if_false, Bool.false_eq_true]
        constructor
        · simp [Response.status, h0]
        · intro _
          exact ⟨s, rfl, h0, jsTrim_idempotent s, rfl⟩

/-! ## Task text on update -/

theorem task_after_fields (now : Nat) (s : String) (completed : Option Bool) (w : JsVal)
    (row : TodoRow) :
    ((buildUpdateFields { task := some s, completed := completed } w).foldl
      (applyAssignment now) row).task = jsTrim s := by
  unfold buildUpdateFields
  cases completed with
  | none => rfl
  | some b =>
      simp only [List.singleton_append, List.foldl_cons]
      split_ifs <;> rfl

/-- The statement `UPDATE todos` on the first row with the identifier. -/
theorem todoOf_sqlUpdateTodos (now : Nat) (fields : List Assignment) (todoId : String)
    (db : Db) :
    todoOf (sqlUpdateTodos now fields todoId db) todoId =
      (todoOf db todoId).map (fun row =>
        { fields.foldl (applyAssignment now) row with updated_at := now }) := by
  unfold todoOf selectTodosById sqlUpdateTodos
  simp only []
  rw [head?_filter_map_key (fun t : TodoRow => t.todo_id == todoId) _
    (fun row => { List.foldl (applyAssignment now) row fields with updated_at := now })]
  · intro a
    by_cases h : (a.todo_id == todoId) = true
    · simp only [h, if_true]
      rw [(foldl_applyAssignment_ids now fields a).1]
      exact h
    · simp only [h, if_false, Bool.false_eq_true]
  · intro a h
    simp only [h, if_true]

/-- After a successful `updateTodo` that supplies a text, the stored text of the task is
the trimmed text, equal to its own trimmed form (and empty when the supplied text is empty
or white space only). -/
theorem updateTodo_text (env : Env) (u todoId s : String) (completed : Option Bool)
    (db : Db)
    (hs : (updateTodo env u todoId { task := some s, completed := completed } db).1.isSuccess
      = true) :
    ∃ t, todoOf (updateTodo env u todoId { task := some s, completed := completed } db).2
        todoId = some t ∧ t.task = jsTrim s ∧ jsTrim t.task = t.task := by
  obtain ⟨existing, rest, r, hsel, _, hb, _⟩ := updateTodo_of_success env u todoId _ db hs
  have htodos := rankBookkeeping_todos env u _ _ _ _ r hb
  rw [todoOf_congr _ _ todoId htodos, todoOf_sqlUpdateTodos,
    todoOf_cons db todoId existing rest hsel]
  refine ⟨_, rfl, ?_, ?_⟩
  · exact task_after_fields env.now s completed (JsVal.num existing.completed) existing
  · simp only []
    rw [task_after_fields env.now s completed (JsVal.num existing.completed) existing]
    exact jsTrim_idempotent s

/-! ## Claims on lookup errors, the event log, task text and the leaderboard limit -/

set_option maxRecDepth 100000 in
/-- C6 (evaluation at the failing input): a fresh user completes ten distinct, not completed
tasks while the `INSERT INTO rank_upgrades` raises an error.  Every one of the ten requests
answers 200 (the tenth without `rankUpgrade`), the count is 10 and the stored tier is silver,
and the event log is empty; when every statement executes the same ten requests leave the
one event iron -> silver at count 10. -/
theorem completions_lose_event_on_insert_failure :
    countOf tenTasksDb "u1" = some 0 ∧ tierOf tenTasksDb "u1" = some Rank.iron ∧
    eventsOf tenTasksDb "u1" = [] ∧
    (runRequests (tenIds.map completeInsertFailing) tenTasksDb).1.length = 10 ∧
    (runRequests (tenIds.map completeInsertFailing) tenTasksDb).1.all Response.isSuccess
      = true ∧
    (runRequests (tenIds.map completeInsertFailing) tenTasksDb).1.all
      (fun r => decide (r.rankUpgrade? = none)) = true ∧
    countOf (runRequests (tenIds.map completeInsertFailing) tenTasksDb).2 "u1" = some 10 ∧
    tierOf (runRequests (tenIds.map completeInsertFailing) tenTasksDb).2 "u1" =
      some (calculateRank 10) ∧
    eventsOf (runRequests (tenIds.map completeInsertFailing) tenTasksDb).2 "u1" = [] ∧
    (eventsOf (runRequests (tenIds.map (setCompleted true)) tenTasksDb).2 "u1").map
      RankUpgradeRow.summary = [(Rank.iron, Rank.silver, 10)] := by
  decide

/-- C11: for `getTodoById`, `updateTodo` and `deleteTodo`, whenever the lookup of the task
executes, the response is 404 exactly when no task has the given id and 403 exactly when the
task exists and its owner is not the caller (a lookup that raises an error is answered 500);
and in both cases the request is a failure and the database (task rows, counts, tiers and
events of every user) is unchanged. -/
theorem not_found_and_forbidden (env : Env) (u todoId : String) (body : UpdateBody)
    (db : Db) :
    (((getTodoById env u todoId db).1.status = 404 ↔
        readExecutes env = true ∧ todoOf db todoId = none) ∧
      ((getTodoById env u todoId db).1.status = 403 ↔
        readExecutes env = true ∧ ∃ t, todoOf db todoId = some t ∧ t.user_id ≠ u) ∧
      (getTodoById env u todoId db).2 = db) ∧
    (((updateTodo env u todoId body db).1.status = 404 ↔
        lookupExecutes env = true ∧ todoOf db todoId = none) ∧
      ((updateTodo env u todoId body db).1.status = 403 ↔
        lookupExecutes env = true ∧ ∃ t, todoOf db todoId = some t ∧ t.user_id ≠ u) ∧
      ((updateTodo env u todoId body db).1.status = 404 ∨
        (updateTodo env u todoId body db).1.status = 403 →
          (updateTodo env u todoId body db).2 = db ∧
          (updateTodo env u todoId body db).1.isSuccess = false)) ∧
    (((deleteTodo env u todoId db).1.status = 404 ↔
        lookupExecutes env = true ∧ todoOf db todoId = none) ∧
      ((deleteTodo env u todoId db).1.status = 403 ↔
        lookupExecutes env = true ∧ ∃ t, todoOf db todoId = some t ∧ t.user_id ≠ u) ∧
      ((deleteTodo env u todoId db).1.status = 404 ∨
        (deleteTodo env u todoId db).1.status = 403 →
          (deleteTodo env u todoId db).2 = db ∧
          (deleteTodo env u todoId db).1.isSuccess = false)) :=
  ⟨getTodoById_lookup env u todoId db, updateTodo_lookup env u todoId body db,
    deleteTodo_lookup env u todoId db⟩

/-- Witness of C11: another user asks to delete the task of `u1`, every statement executing;
the answer is 403 and the database is as before. -/
theorem not_found_and_forbidden_witness :
    (deleteTodo (Env.sound 7 "k") "u2" "t1" (sampleDb 3 Rank.iron 1 (some 2))).1.status = 403 ∧
    (deleteTodo (Env.sound 7 "k") "u2" "t1" (sampleDb 3 Rank.iron 1 (some 2))).2 =
      sampleDb 3 Rank.iron 1 (some 2) :=
  ⟨((not_found_and_forbidden (Env.sound 7 "k") "u2" "t1" { task := none, completed := none }
      (sampleDb 3 Rank.iron 1 (some 2))).2.2.2.1).mpr
      ⟨by decide,
        { todo_id := "t1", user_id := "u1", task := "write report", completed := 1,
          completed_at := some 2, created_at := 1, updated_at := 1 },
        by decide, by decide⟩,
   (((not_found_and_forbidden (Env.sound 7 "k") "u2" "t1" { task := none, completed := none }
      (sampleDb 3 Rank.iron 1 (some 2))).2.2.2.2) (Or.inr (by decide))).1⟩

set_option maxRecDepth 100000 in
/-- C12 (counterexample): a fresh user completes twenty-five tasks (events at the counts 10
and 25), un-completes sixteen of them (count 9) and completes one again (count 10); every
request succeeds, and the events record the counts 10, 25, 10 in insertion order. -/
theorem event_counts_drop_after_recrossing :
    countOf manyTasksDb "u1" = some 0 ∧ tierOf manyTasksDb "u1" = some Rank.iron ∧
    eventsOf manyTasksDb "u1" = [] ∧
    (runRequests recrossRequests manyTasksDb).1.all Response.isSuccess = true ∧
    eventCounts (runRequests recrossRequests manyTasksDb).2 "u1" = [10, 25, 10] ∧
    ¬ (eventCounts (runRequests recrossRequests manyTasksDb).2 "u1").Pairwise
      (fun a b => a ≤ b) := by
  decide

/-- C12 (amended): for every user and every sequence of create, update and delete requests
starting from a fresh user (count 0, no event) during which the lifetime count stored for
the user never decreases, the counts recorded in the user's upgrade events are non-decreasing
in insertion order and none exceeds the count stored at the end; and every request, in every
state, leaves the user's log as it is or appends one event to it, which records the count
stored for the user after that request. -/
theorem event_counts_sorted (u : String) (reqs : List Request) (db : Db)
    (hc : countOf db u = some 0) (he : eventsOf db u = [])
    (hmono : countNeverDrops u reqs db = true) :
    (eventCounts (runRequests reqs db).2 u).Pairwise (fun a b => a ≤ b) ∧
    (∃ c, countOf (runRequests reqs db).2 u = some c ∧
      ∀ n ∈ eventCounts (runRequests reqs db).2 u, n ≤ c) ∧
    (∀ (r : Request) (db2 : Db) (c : Int), countOf db2 u = some c →
      ∃ c2, countOf (r.handle db2).2 u = some c2 ∧
        (eventsOf (r.handle db2).2 u = eventsOf db2 u ∨
         ∃ e, eventsOf (r.handle db2).2 u = eventsOf db2 u ++ [e] ∧
           e.tasks_completed_at_upgrade = c2)) := by
  have hbound : ∀ n ∈ eventCounts db u, n ≤ (0 : Int) := by
    intro n hn
    unfold eventCounts at hn
    rw [he] at hn
    simp at hn
  have hsorted : (eventCounts db u).Pairwise (fun a b => a ≤ b) := by
    unfold eventCounts
    rw [he]
    exact List.Pairwise.nil
  obtain ⟨h1, h2⟩ := runRequests_sorted u reqs db 0 hc hbound hsorted hmono
  exact ⟨h1, h2, fun r db2 c h => handle_events u r db2 c h⟩

set_option maxRecDepth 100000 in
/-- Witness of C12 (amended): a fresh user completes twenty-five tasks; the count never
decreases and the log records the counts 10 and 25, in that order. -/
theorem event_counts_sorted_witness :
    countOf manyTasksDb "u1" = some 0 ∧ eventsOf manyTasksDb "u1" = [] ∧
    countNeverDrops "u1" (manyIds.map (setCompleted true)) manyTasksDb = true ∧
    eventCounts (runRequests (manyIds.map (setCompleted true)) manyTasksDb).2 "u1" =
      [10, 25] ∧
    (eventCounts (runRequests (manyIds.map (setCompleted true)) manyTasksDb).2 "u1").Pairwise
      (fun a b => a ≤ b) :=
  ⟨by decide, by decide, by decide, by decide,
    (event_counts_sorted "u1" (manyIds.map (setCompleted true)) manyTasksDb (by decide)
      (by decide) (by decide)).1⟩

/-- C13 (evaluation at the failing input): an `updateTodo` whose `task` is three spaces
succeeds and stores the empty text, while `createTodo` rejects the same text with 400. -/
theorem updateTodo_stores_empty_text :
    updateTodo (Env.sound 7 "k") "u1" "t1" { task := some "   ", completed := none }
        (sampleDb 3 Rank.iron 0 none) =
      (Response.success 200
          (some { todo_id := "t1", user_id := "u1", task := "", completed := 0,
                  completed_at := none, created_at := 1, updated_at := 7 }) none,
        { todos := [{ todo_id := "t1", user_id := "u1", task := "", completed := 0,
                      completed_at := none, created_at := 1, updated_at := 7 }],
          users := [{ user_id := "u1", username := "ann", current_rank := Rank.iron,
                      total_completed_tasks := 3, rank_upgraded_at := none }],
          rank_upgrades := [] }) ∧
    createTodo (Env.sound 7 "k") "u1" (some "   ") (sampleDb 3 Rank.iron 0 none) =
      (Response.failure 400 "Task is required", sampleDb 3 Rank.iron 0 none) := by
  decide

/-- C14 (evaluation at the failing input): for `limit=-5` the value bound to `LIMIT ?` is
`-5`, not 10; an absent, unparseable or zero parameter gives 10 and a positive one gives the
parsed integer. -/
theorem leaderboardLimit_negative :
    leaderboardLimit (some "-5") = -5 ∧
    leaderboardLimit none = 10 ∧
    leaderboardLimit (some "abc") = 10 ∧
    leaderboardLimit (some "0") = 10 ∧
    leaderboardLimit (some "7") = 7 := by
  decide

end TaskFlow
